import Mathlib

/-!
Shallow embedding of the `zipstream` streaming ZIP writer
(`src/zipstream/base.py`, `src/zipstream/zipstream.py`,
`src/zipstream/aiozipstream.py`, `src/zipstream/consts.py`).

Bytes are modelled as `List Nat` (each element a byte value).  Python
exceptions become an explicit error type threaded through `Except`.
The external zlib deflate engine is an opaque parameter (`Compressor`);
zlib's CRC-32 is modelled directly from the standard ISO-3309 / PKZIP
algorithm that zlib implements.
-/

namespace ZipStreamModel

/-- Python exceptions that the embedded code can raise.  `StructError`
stands for `struct.error` (a field out of range for its width),
`AttributeError` for an access to an undefined attribute, `KeyError`
for a missing dictionary key; the rest are the package's own
exception classes from `base.py`. -/
inductive PyErr where
  | MissingSourceError
  | UnsupportedCompressionError
  | UnsupportedSourceTypeError
  | Zip64RequiredError
  | KeyError
  | AttributeError
  | StructError
deriving DecidableEq, Repr

instance {ε α : Type} [DecidableEq ε] [DecidableEq α] : DecidableEq (Except ε α) := fun x y =>
  match x, y with
  | .ok a, .ok b => decidable_of_iff (a = b) (by simp)
  | .ok _, .error _ => isFalse (by simp)
  | .error _, .ok _ => isFalse (by simp)
  | .error e, .error f => decidable_of_iff (e = f) (by simp)

/-! ### Constants (`consts.py`) -/

def ZIP32_VERSION : Nat := 20
def ZIP64_VERSION : Nat := 45
def ZIP32_LIMIT : Nat := 2 ^ 31 - 1
def UTF8_FLAG : Nat := 0x800
def COMPRESSION_STORE : Nat := 0
def COMPRESSION_DEFLATE : Nat := 8
def LF_MAGIC : List Nat := [0x50, 0x4B, 0x03, 0x04]
def DD_MAGIC : List Nat := [0x50, 0x4B, 0x07, 0x08]
def CDFH_MAGIC : List Nat := [0x50, 0x4B, 0x01, 0x02]
def CD_END_MAGIC : List Nat := [0x50, 0x4B, 0x05, 0x06]
def CD_END_MAGIC64 : List Nat := [0x50, 0x4B, 0x06, 0x06]
def CD_LOC64_MAGIC : List Nat := [0x50, 0x4B, 0x06, 0x07]

/-- Little-endian encoding of `n` into `k` bytes, as `struct.pack`
produces for an in-range value (`H` = 2 bytes, `L`/`I` = 4, `Q` = 8). -/
def leBytes : Nat → Nat → List Nat
  | 0, _ => []
  | k + 1, n => n % 256 :: leBytes k (n / 256)

/-! ### CRC-32 (the algorithm zlib.crc32 implements)

Modelled from the spec: `zlib.crc32` is outside this repository; the
spec fixes it as "the standard ISO-3309/ZIP CRC-32 algorithm,
accumulated across all chunks in call order", which is the reflected
CRC with polynomial 0xEDB88320 and pre/post inversion. -/

def crcStep (c : Nat) : Nat := if c % 2 = 1 then (c / 2) ^^^ 0xEDB88320 else c / 2

def crcTable (b : Nat) : Nat := crcStep^[8] b

def crc32UpdateByte (c b : Nat) : Nat := (c / 256) ^^^ crcTable ((c ^^^ b) % 256)

def crc32Raw (bs : List Nat) (c : Nat) : Nat := bs.foldl crc32UpdateByte c

/-- `crc32 bs prev` is `zlib.crc32(bs, prev)`. -/
def crc32 (bs : List Nat) (prev : Nat) : Nat :=
  crc32Raw bs (prev ^^^ 0xFFFFFFFF) ^^^ 0xFFFFFFFF

/-! ### External deflate engine

The zlib `compressobj` used for the "deflate" method is an external
collaborator; the embedding is parametric in its behaviour. -/

structure Compressor where
  S : Type
  init : S
  compress : S → List Nat → S × List Nat
  flush : S → List Nat

/-- A degenerate compressor instance used to evaluate the model on
concrete inputs that never exercise the deflate path. -/
def idCompressor : Compressor :=
  { S := Unit, init := (), compress := fun s c => (s, c), flush := fun _ => [] }

/-! ### Entry processor (`Processor` in `base.py`) -/

structure PState (σ : Type) where
  crc : Nat
  o_size : Nat
  c_size : Nat
  deflate : Bool
  cst : σ
deriving Repr

/-- `Processor.__init__` / `_get_compression_methods`: `None` selects
the pass-through ("store") methods, `'deflate'` the zlib-backed ones,
anything else raises `UnsupportedCompressionError`. -/
def processorInit (C : Compressor) : Option String → Except PyErr (PState C.S)
  | none => .ok ⟨0, 0, 0, false, C.init⟩
  | some m =>
      if m = "deflate" then .ok ⟨0, 0, 0, true, C.init⟩
      else .error PyErr.UnsupportedCompressionError

/-- `Processor.process` (bound to `_process_through` or
`_process_deflate` at construction time). -/
def procProcess (C : Compressor) (p : PState C.S) (chunk : List Nat) :
    PState C.S × List Nat :=
  if p.deflate then
    let r := C.compress p.cst chunk
    ({ p with o_size := p.o_size + chunk.length,
              crc := crc32 chunk p.crc,
              cst := r.1,
              c_size := p.c_size + r.2.length }, r.2)
  else
    ({ p with o_size := p.o_size + chunk.length,
              c_size := p.o_size + chunk.length,
              crc := crc32 chunk p.crc }, chunk)

/-- `Processor.tail` (`_no_tail` or `_tail_deflate`). -/
def procTail (C : Compressor) (p : PState C.S) : PState C.S × List Nat :=
  if p.deflate then
    let out := C.flush p.cst
    ({ p with c_size := p.c_size + out.length }, out)
  else (p, [])

/-- The processing loop of `_stream_single_file`: feed every data chunk
through `process`, collecting the outputs in order. -/
def procFold (C : Compressor) (p : PState C.S) :
    List (List Nat) → PState C.S × List (List Nat)
  | [] => (p, [])
  | c :: rest =>
    let r := procProcess C p c
    let r2 := procFold C r.1 rest
    (r2.1, r.2 :: r2.2)

/-! ### Data model -/

/-- A file on disk: `os.stat(path).st_size` is `content.length`, and
`open(path).read` yields `content`. -/
structure PyFile where
  path : List Nat
  content : List Nat
deriving DecidableEq, Repr

/-- The resolved byte source stored in a file struct (`src` plus
`stype` : `'f'` for a path, `'s'` for a generator of chunks). -/
inductive Src where
  | f : List Nat → List Nat → Src
  | s : List (List Nat) → Src
deriving DecidableEq, Repr

/-- A caller-supplied member description: the optional `'file'`,
`'stream'`, `'name'` and `'compression'` dictionary keys.  Names and
paths are Python strings, modelled as lists of Unicode code points. -/
structure SrcData where
  file : Option PyFile
  stream : Option (List (List Nat))
  name : Option (List Nat)
  compression : Option String
deriving DecidableEq, Repr

/-- The per-member dictionary built by `_create_file_struct` and later
mutated by `_make_data_descriptor` (`size`/`csize` keys). -/
structure FileStruct where
  mod_time : Nat
  mod_date : Nat
  crc : Nat
  offset : Nat
  flags : Nat
  src : Src
  cmethod : Option String
  cmpr_id : Nat
  fname : List Nat
  size : Nat
  csize : Nat
deriving DecidableEq, Repr

/-- `ZipBase` instance state.  `zip64` is Python's tri-state value
(`True`/`False`/`None`), `zip64headers` is `__zip64headers`,
`off` is `__offset`, `cdir_size` is `__cdir_size`, `files` is
`__files`, `use_ddmagic` is `__use_ddmagic`. -/
structure ZState where
  zip64 : Option Bool
  zip64headers : Bool
  version : Nat
  files : List FileStruct
  cdir_size : Nat
  off : Nat
  chunksize : Nat
  use_ddmagic : Bool
deriving DecidableEq, Repr

/-- `time.localtime()` result (the fields `_create_file_struct` uses). -/
structure DT where
  year : Nat
  month : Nat
  day : Nat
  hour : Nat
  minute : Nat
  second : Nat
deriving DecidableEq, Repr

def dosDate (dt : DT) : Nat :=
  (((dt.year - 1980) <<< 9) ||| (dt.month <<< 5) ||| dt.day) &&& 0xffff

def dosTime (dt : DT) : Nat :=
  ((dt.hour <<< 11) ||| (dt.minute <<< 5) ||| (dt.second / 2)) &&& 0xffff

/-- `str.encode("ascii")`: succeeds exactly when every code point is
below 128. -/
def encodeAscii (s : List Nat) : Option (List Nat) :=
  if s.all (fun c => c < 128) then some s else none

/-- `str.encode("utf-8")` on a list of code points. -/
def utf8Char (c : Nat) : List Nat :=
  if c < 0x80 then [c]
  else if c < 0x800 then [0xC0 ||| c / 64, 0x80 ||| c % 64]
  else if c < 0x10000 then
    [0xE0 ||| c / 4096, 0x80 ||| (c / 64) % 64, 0x80 ||| c % 64]
  else
    [0xF0 ||| c / 0x40000, 0x80 ||| (c / 4096) % 64, 0x80 ||| (c / 64) % 64, 0x80 ||| c % 64]

def encodeUtf8 (s : List Nat) : List Nat := (s.map utf8Char).flatten

/-- `os.path.basename`: the suffix after the last `'/'` (code 47). -/
def basename (p : List Nat) : List Nat :=
  ((p.reverse.takeWhile (fun c => c != 47)).reverse)

/-- `ZipBase.zip64_required`: a no-op when ZIP64 is already active,
a hard `Zip64RequiredError` when it was pinned to `False`, otherwise
the upgrade of mode, header flag and advertised version. -/
def zip64_required (s : ZState) : Except PyErr ZState :=
  if s.zip64 = some true then .ok s
  else if s.zip64 = some false then .error PyErr.Zip64RequiredError
  else .ok { s with zip64 := some true, zip64headers := true, version := ZIP64_VERSION }

/-- The source-resolution part of `_create_file_struct`: the `'file'`
branch (with its `os.stat` size check triggering the ZIP64 upgrade),
the `'stream'` branch, or `MissingSourceError`. -/
def resolveSource (st : ZState) (data : SrcData) : Except PyErr (ZState × Src) :=
  match data.file with
  | some f =>
      if f.content.length > ZIP32_LIMIT then
        match zip64_required st with
        | .error e => .error e
        | .ok st' => .ok (st', Src.f f.path f.content)
      else .ok (st, Src.f f.path f.content)
  | none =>
      match data.stream with
      | some cs => .ok (st, Src.s cs)
      | none => .error PyErr.MissingSourceError

/-- The default-name step of `_create_file_struct`:
`data['name'] = os.path.basename(data['file'])` when `'name'` is
absent — a raw `data['file']` lookup, hence `KeyError` when the member
has no `'file'` key either. -/
def nameOf (data : SrcData) : Except PyErr (List Nat) :=
  match data.name with
  | some n => .ok n
  | none =>
    match data.file with
    | some f => .ok (basename f.path)
    | none => .error PyErr.KeyError

/-- The name-encoding step: ASCII when representable, else UTF-8 with
the UTF-8 flag bit added. -/
def encodeName (name : List Nat) (flags0 : Nat) : List Nat × Nat :=
  match encodeAscii name with
  | some bs => (bs, flags0)
  | none => (encodeUtf8 name, flags0 ||| UTF8_FLAG)

/-- `ZipBase._create_file_struct`.  Follows the source order: source
resolution, then the compression check (only `None` and `'deflate'`
are admitted), then the default-name derivation and encoding. -/
def createFileStruct (st : ZState) (dt : DT) (data : SrcData) :
    Except PyErr (ZState × FileStruct) :=
  match resolveSource st data with
  | .error e => .error e
  | .ok (st, src) =>
    if data.compression = none ∨ data.compression = some "deflate" then
      let cmprId : Nat := if data.compression = none then COMPRESSION_STORE else COMPRESSION_DEFLATE
      match nameOf data with
      | .error e => .error e
      | .ok name =>
        let enc := encodeName name 0b00001000
        .ok (st, { mod_time := dosTime dt, mod_date := dosDate dt, crc := 0, offset := 0,
                   flags := enc.2, src := src, cmethod := data.compression,
                   cmpr_id := cmprId, fname := enc.1, size := 0, csize := 0 })
    else .error PyErr.UnsupportedCompressionError

/-! ### Structure encoders

Each `_make_*` method packs one fixed-width record with a single
`struct.pack` call; an out-of-range field makes that call raise
`struct.error`, so each encoder checks all its variable fields at once
and otherwise emits the concatenated little-endian bytes. -/

/-- `ZipBase._make_extra_field` (call sites pass in-range constants). -/
def makeExtraField (sig : Nat) (data : List Nat) : List Nat :=
  leBytes 2 sig ++ leBytes 2 data.length ++ data

/-- `ZipBase._make_zip64_local_extra`. -/
def makeZip64LocalExtra (fsize compsize : Nat) : List Nat :=
  makeExtraField 1 (leBytes 8 fsize ++ leBytes 8 compsize)

/-- `ZipBase._make_zip64_cdir_extra` (note: `_make_cdir_file_header`
never reaches it — it invokes the undefined name
`make_zip64_cdir_extra` instead). -/
def makeZip64CdirExtra (fsize compsize offset : Nat) : List Nat :=
  makeExtraField 1 (leBytes 8 fsize ++ leBytes 8 compsize ++ leBytes 8 offset)

/-- `ZipBase._make_local_file_header`: crc and both sizes are packed as
zero (deferred to the data descriptor); in ZIP64 mode the size fields
are the 0xFFFFFFFF sentinels and the ZIP64 local extra is built with
zeros. -/
def makeLocalFileHeader (s : ZState) (fs : FileStruct) : Except PyErr (List Nat) :=
  let comp : Nat := if s.zip64headers then 0xffffffff else 0
  let uncomp : Nat := if s.zip64headers then 0xffffffff else 0
  let extra : List Nat := if s.zip64headers then makeZip64LocalExtra 0 0 else []
  if s.version < 65536 ∧ fs.flags < 65536 ∧ fs.cmpr_id < 65536 ∧
     fs.mod_time < 65536 ∧ fs.mod_date < 65536 ∧
     fs.fname.length < 65536 ∧ extra.length < 65536 then
    .ok (LF_MAGIC ++ leBytes 2 s.version ++ leBytes 2 fs.flags ++ leBytes 2 fs.cmpr_id ++
         leBytes 2 fs.mod_time ++ leBytes 2 fs.mod_date ++ leBytes 4 0 ++
         leBytes 4 comp ++ leBytes 4 uncomp ++
         leBytes 2 fs.fname.length ++ leBytes 2 extra.length ++ fs.fname ++ extra)
  else .error PyErr.StructError

/-- `ZipBase._make_data_descriptor`: records the masked CRC and both
sizes into the file struct, then packs `<LLL>` (or `<LQQ>` in ZIP64
mode) in the order crc, compressed size, original size, prefixed with
the descriptor magic when `__use_ddmagic` is set. -/
def makeDataDescriptor (s : ZState) (fs : FileStruct) (crc org comp : Nat) :
    Except PyErr (FileStruct × List Nat) :=
  let fs2 := { fs with crc := crc % 4294967296, size := org, csize := comp }
  let bound : Nat := if s.zip64headers then 18446744073709551616 else 4294967296
  let w : Nat := if s.zip64headers then 8 else 4
  if fs2.csize < bound ∧ fs2.size < bound then
    let body := leBytes 4 fs2.crc ++ leBytes w fs2.csize ++ leBytes w fs2.size
    .ok (fs2, if s.use_ddmagic then DD_MAGIC ++ body else body)
  else .error PyErr.StructError

/-- `ZipBase._make_cdir_file_header`.  In ZIP64 mode the source calls
`self.make_zip64_cdir_extra`, an attribute that does not exist (the
defined method is `_make_zip64_cdir_extra`), so Python raises
`AttributeError` before packing anything. -/
def makeCdirFileHeader (s : ZState) (fs : FileStruct) : Except PyErr (List Nat) :=
  if s.zip64headers then .error PyErr.AttributeError
  else if s.version < 256 ∧ s.version < 65536 ∧ fs.flags < 65536 ∧ fs.cmpr_id < 65536 ∧
          fs.mod_time < 65536 ∧ fs.mod_date < 65536 ∧ fs.crc < 4294967296 ∧
          fs.csize < 4294967296 ∧ fs.size < 4294967296 ∧
          fs.fname.length < 65536 ∧ fs.offset < 4294967296 then
    .ok (CDFH_MAGIC ++ leBytes 1 s.version ++ leBytes 1 3 ++ leBytes 2 s.version ++
         leBytes 2 fs.flags ++ leBytes 2 fs.cmpr_id ++ leBytes 2 fs.mod_time ++
         leBytes 2 fs.mod_date ++ leBytes 4 fs.crc ++ leBytes 4 fs.csize ++
         leBytes 4 fs.size ++ leBytes 2 fs.fname.length ++ leBytes 2 0 ++ leBytes 2 0 ++
         leBytes 2 0 ++ leBytes 2 0 ++ leBytes 4 0 ++ leBytes 4 fs.offset ++ fs.fname)
  else .error PyErr.StructError

/-- `ZipBase._make_cdend` (standard EOCD, with sentinel saturation in
ZIP64 mode). -/
def makeCdend (s : ZState) : Except PyErr (List Nat) :=
  let entries : Nat := if s.zip64headers then 0xffff else s.files.length
  let cdsize : Nat := if s.zip64headers then 0xffffffff else s.cdir_size
  let cdoff : Nat := if s.zip64headers then 0xffffffff else s.off
  if entries < 65536 ∧ cdsize < 4294967296 ∧ cdoff < 4294967296 then
    .ok (CD_END_MAGIC ++ leBytes 2 0 ++ leBytes 2 0 ++ leBytes 2 entries ++
         leBytes 2 entries ++ leBytes 4 cdsize ++ leBytes 4 cdoff ++ leBytes 2 0)
  else .error PyErr.StructError

/-- `ZipBase._make_cdend64` (`CD_END_STRUCT64.size - 12 = 44`). -/
def makeCdend64 (s : ZState) : Except PyErr (List Nat) :=
  if s.version < 65536 ∧ s.files.length < 18446744073709551616 ∧
     s.cdir_size < 18446744073709551616 ∧ s.off < 18446744073709551616 then
    .ok (CD_END_MAGIC64 ++ leBytes 8 44 ++ leBytes 2 s.version ++ leBytes 2 s.version ++
         leBytes 4 0 ++ leBytes 4 0 ++ leBytes 8 s.files.length ++
         leBytes 8 s.files.length ++ leBytes 8 s.cdir_size ++ leBytes 8 s.off)
  else .error PyErr.StructError

/-- `ZipBase._make_eocd64_locator`. -/
def makeEocd64Locator (offset : Nat) : Except PyErr (List Nat) :=
  if offset < 18446744073709551616 then
    .ok (CD_LOC64_MAGIC ++ leBytes 4 0 ++ leBytes 8 offset ++ leBytes 4 1)
  else .error PyErr.StructError

/-! ### Trailer emission (`_make_end_structures`) -/

/-- The central-directory loop of `_make_end_structures`: one header
per completed entry, accumulating `__cdir_size`. -/
def cdirLoop (s : ZState) : List FileStruct → Except PyErr (ZState × List (List Nat))
  | [] => .ok (s, [])
  | fs :: rest =>
    match makeCdirFileHeader s fs with
    | .error e => .error e
    | .ok c =>
      match cdirLoop { s with cdir_size := s.cdir_size + c.length } rest with
      | .error e => .error e
      | .ok (s', cs) => .ok (s', c :: cs)

/-- `ZipBase._make_end_structures`: all central-directory headers, then
(in ZIP64 mode) the ZIP64 EOCD at position offset + central-directory
size and its locator, then the standard EOCD. -/
def endStructures (s : ZState) : Except PyErr (ZState × List (List Nat)) :=
  match cdirLoop s s.files with
  | .error e => .error e
  | .ok (s, cds) =>
    let zpartE : Except PyErr (List (List Nat)) :=
      if s.zip64headers then
        match makeCdend64 s with
        | .error e => .error e
        | .ok a =>
          match makeEocd64Locator (s.off + s.cdir_size) with
          | .error e => .error e
          | .ok b => .ok [a, b]
      else .ok []
    match zpartE with
    | .error e => .error e
    | .ok zpart =>
      match makeCdend s with
      | .error e => .error e
      | .ok e => .ok (s, cds ++ zpart ++ [e])

/-! ### Synchronous orchestrator (`zipstream.py`) -/

/-- File contents are read in `chunksize`-byte blocks (`fh.read`);
a zero `chunksize` makes `iter(lambda: fh.read(0), b'')` stop at once. -/
def chunksOfAux : Nat → Nat → List Nat → List (List Nat)
  | 0, _, _ => []
  | _ + 1, _, [] => []
  | fuel + 1, n, x :: xs => ((x :: xs).take n) :: chunksOfAux fuel n ((x :: xs).drop n)

def chunksOf (n : Nat) (l : List Nat) : List (List Nat) :=
  if n = 0 then [] else chunksOfAux l.length n l

/-- `ZipStream.data_generator`. -/
def dataGenerator (chunksize : Nat) : Src → List (List Nat)
  | Src.s cs => cs
  | Src.f _ content => chunksOf chunksize content

/-- `ZipStream._stream_single_file`: local header, every processed
chunk, the tail flush when non-empty, then the data descriptor (built
from `pcs.state()` after the tail).  Returns the descriptor-updated
file struct together with the yielded chunks. -/
def streamSingleFile (C : Compressor) (s : ZState) (fs : FileStruct) :
    Except PyErr (FileStruct × List (List Nat)) :=
  match makeLocalFileHeader s fs with
  | .error e => .error e
  | .ok hdr =>
    match processorInit C fs.cmethod with
    | .error e => .error e
    | .ok p0 =>
      let r := procFold C p0 (dataGenerator s.chunksize fs.src)
      let t := procTail C r.1
      let outs := if t.2 = [] then r.2 else r.2 ++ [t.2]
      match makeDataDescriptor s fs t.1.crc t.1.o_size t.1.c_size with
      | .error e => .error e
      | .ok fd => .ok (fd.1, hdr :: (outs ++ [fd.2]))

/-- One iteration of `ZipStream.stream`'s member loop: normalize the
member, record its offset, stream it, advance the running offset by
every yielded byte and append the completed struct to `__files`
(the Python list holds the same dict the descriptor later mutates). -/
def processMember (C : Compressor) (dt : DT) (s : ZState) (d : SrcData) :
    Except PyErr (ZState × List (List Nat)) :=
  match createFileStruct s dt d with
  | .error e => .error e
  | .ok (s, fs) =>
    match streamSingleFile C s { fs with offset := s.off } with
    | .error e => .error e
    | .ok (fs, chunks) =>
      .ok ({ s with off := s.off + chunks.flatten.length,
                    files := s.files ++ [fs] }, chunks)

/-- The member loop of `ZipStream.stream`, with generator semantics:
chunks yielded before an exception are kept, the exception aborts the
rest.  (Chunks a failing member yielded before its own failure are not
tracked; no stated property depends on them.) -/
def membersLoop (C : Compressor) (dt : DT) :
    ZState → List SrcData → ZState × List (List Nat) × Option PyErr
  | s, [] => (s, [], none)
  | s, d :: rest =>
    match processMember C dt s d with
    | .error e => (s, [], some e)
    | .ok (s1, cs) =>
      let r := membersLoop C dt s1 rest
      (r.1, cs ++ r.2.1, r.2.2)

def initState (zip64 : Option Bool) (chunksize : Nat) : ZState :=
  { zip64 := zip64, zip64headers := false, version := ZIP32_VERSION, files := [],
    cdir_size := 0, off := 0, chunksize := chunksize, use_ddmagic := true }

/-- `ZipBase.__init__`: stores the tri-state `zip64` selector and calls
`zip64_required` when it is truthy (i.e. `True`). -/
def zipInit (zip64 : Option Bool) (chunksize : Nat) : Except PyErr ZState :=
  let s := initState zip64 chunksize
  if zip64 = some true then zip64_required s else .ok s

/-- `ZipStream.stream` after the member loop: the trailer, unless an
earlier exception already aborted the generator.  (`_cleanup` then
resets the instance state; the returned state is the pre-cleanup one,
which the trailer was built from.) -/
def streamFrom (C : Compressor) (dt : DT) (s : ZState) (srcs : List SrcData) :
    ZState × List (List Nat) × Option PyErr :=
  let r := membersLoop C dt s srcs
  match r.2.2 with
  | some _ => r
  | none =>
    match endStructures r.1 with
    | .error e => (r.1, r.2.1, some e)
    | .ok (s2, ends) => (s2, r.2.1 ++ ends, none)

/-- The full synchronous build: construction (`ZipStream(files,
chunksize, zip64)`) followed by `stream()`, returning the yielded
chunks and the exception that aborted the generator, if any. -/
def streamZip (C : Compressor) (dt : DT) (zip64 : Option Bool) (chunksize : Nat)
    (srcs : List SrcData) : List (List Nat) × Option PyErr :=
  match zipInit zip64 chunksize with
  | .error e => ([], some e)
  | .ok s =>
    let r := streamFrom C dt s srcs
    (r.2.1, r.2.2)

/-! ### Asynchronous orchestrator (`aiozipstream.py`)

`AioZipStream` duplicates the synchronous control flow with `async`
generators; awaiting does not change which chunks are produced or
their order, so each async generator is embedded as its sequential
chunk sequence.  `_create_file_struct` additionally requires the
`aiofiles` module for file-path sources; its availability is the
`aioAvailable` parameter. -/

/-- `AioZipStream.data_generator`. -/
def aioDataGenerator (chunksize : Nat) : Src → List (List Nat)
  | Src.s cs => cs
  | Src.f _ content => chunksOf chunksize content

/-- `AioZipStream._create_file_struct`: the `aiofiles` guard, then
`super()._create_file_struct`. -/
def aioCreateFileStruct (aioAvailable : Bool) (st : ZState) (dt : DT) (data : SrcData) :
    Except PyErr (ZState × FileStruct) :=
  if data.file.isSome ∧ aioAvailable = false then .error PyErr.MissingSourceError
  else createFileStruct st dt data

/-- `AioZipStream._stream_single_file`. -/
def aioStreamSingleFile (C : Compressor) (s : ZState) (fs : FileStruct) :
    Except PyErr (FileStruct × List (List Nat)) :=
  match makeLocalFileHeader s fs with
  | .error e => .error e
  | .ok hdr =>
    match processorInit C fs.cmethod with
    | .error e => .error e
    | .ok p0 =>
      let r := procFold C p0 (aioDataGenerator s.chunksize fs.src)
      let t := procTail C r.1
      let outs := if t.2 = [] then r.2 else r.2 ++ [t.2]
      match makeDataDescriptor s fs t.1.crc t.1.o_size t.1.c_size with
      | .error e => .error e
      | .ok fd => .ok (fd.1, hdr :: (outs ++ [fd.2]))

/-- One iteration of `AioZipStream.stream`'s member loop. -/
def aioProcessMember (aioAvailable : Bool) (C : Compressor) (dt : DT)
    (s : ZState) (d : SrcData) : Except PyErr (ZState × List (List Nat)) :=
  match aioCreateFileStruct aioAvailable s dt d with
  | .error e => .error e
  | .ok (s, fs) =>
    match aioStreamSingleFile C s { fs with offset := s.off } with
    | .error e => .error e
    | .ok (fs, chunks) =>
      .ok ({ s with off := s.off + chunks.flatten.length,
                    files := s.files ++ [fs] }, chunks)

/-- The member loop of `AioZipStream.stream`. -/
def aioMembersLoop (aioAvailable : Bool) (C : Compressor) (dt : DT) :
    ZState → List SrcData → ZState × List (List Nat) × Option PyErr
  | s, [] => (s, [], none)
  | s, d :: rest =>
    match aioProcessMember aioAvailable C dt s d with
    | .error e => (s, [], some e)
    | .ok (s1, cs) =>
      let r := aioMembersLoop aioAvailable C dt s1 rest
      (r.1, cs ++ r.2.1, r.2.2)

/-- `AioZipStream.stream` (the trailer emission `_make_end_structures`
is inherited from `ZipBase`). -/
def aioStreamFrom (aioAvailable : Bool) (C : Compressor) (dt : DT)
    (s : ZState) (srcs : List SrcData) : ZState × List (List Nat) × Option PyErr :=
  let r := aioMembersLoop aioAvailable C dt s srcs
  match r.2.2 with
  | some _ => r
  | none =>
    match endStructures r.1 with
    | .error e => (r.1, r.2.1, some e)
    | .ok (s2, ends) => (s2, r.2.1 ++ ends, none)

/-- The full asynchronous build (`AioZipStream.__init__` is the
inherited `ZipBase.__init__`). -/
def streamAioZip (aioAvailable : Bool) (C : Compressor) (dt : DT)
    (zip64 : Option Bool) (chunksize : Nat) (srcs : List SrcData) :
    List (List Nat) × Option PyErr :=
  match zipInit zip64 chunksize with
  | .error e => ([], some e)
  | .ok s =>
    let r := aioStreamFrom aioAvailable C dt s srcs
    (r.2.1, r.2.2)

/-! ### Scanning utilities (for stating byte-level properties) -/

/-- `leadsWith pat l` : `l` begins with `pat`. -/
def leadsWith : List Nat → List Nat → Bool
  | [], _ => true
  | _ :: _, [] => false
  | p :: ps, x :: xs => p == x && leadsWith ps xs

/-- Number of positions of `l` at which the byte pattern `pat` occurs. -/
def countSub (pat : List Nat) : List Nat → Nat
  | [] => if pat = [] then 1 else 0
  | x :: xs => (if leadsWith pat (x :: xs) then 1 else 0) + countSub pat xs

/-- A fixed timestamp for concrete evaluations. -/
def dt0 : DT := ⟨2024, 5, 11, 10, 30, 42⟩

/-! ## Lemmas -/

theorem crc32Raw_append (a b : List Nat) (c : Nat) :
    crc32Raw (a ++ b) c = crc32Raw b (crc32Raw a c) :=
  List.foldl_append ..

/-- Chunkwise CRC accumulation agrees with the CRC of the
concatenation: feeding `b` with the CRC of `a` as the start value
gives the CRC of `a ++ b`. -/
theorem crc32_append (a b : List Nat) (p : Nat) :
    crc32 (a ++ b) p = crc32 b (crc32 a p) := by
  unfold crc32
  rw [Nat.xor_cancel_right, crc32Raw_append]

theorem leBytes_length (k n : Nat) : (leBytes k n).length = k := by
  induction k generalizing n with
  | zero => rfl
  | succ k ih => simp [leBytes, ih]

theorem procProcess_crc (C : Compressor) (p : PState C.S) (c : List Nat) :
    (procProcess C p c).1.crc = crc32 c p.crc := by
  unfold procProcess
  by_cases h : p.deflate <;> simp [h]

theorem procProcess_deflate_flag (C : Compressor) (p : PState C.S) (c : List Nat) :
    (procProcess C p c).1.deflate = p.deflate := by
  unfold procProcess
  by_cases h : p.deflate <;> simp [h]

theorem procFold_crc (C : Compressor) (p : PState C.S) (cs : List (List Nat)) :
    (procFold C p cs).1.crc = crc32 cs.flatten p.crc := by
  induction cs generalizing p with
  | nil => simp [procFold, crc32, crc32Raw, Nat.xor_cancel_right]
  | cons c rest ih =>
      simp only [procFold, List.flatten_cons]
      rw [ih, crc32_append, procProcess_crc]

theorem procTail_crc (C : Compressor) (p : PState C.S) :
    (procTail C p).1.crc = p.crc := by
  unfold procTail
  by_cases h : p.deflate <;> simp [h]

/-- A `process` step in store mode: the chunk comes back unchanged and
the compressed-size counter is set equal to the original-size one. -/
theorem procProcess_store (C : Compressor) (p : PState C.S) (c : List Nat)
    (hp : p.deflate = false) :
    procProcess C p c =
      ({ p with o_size := p.o_size + c.length, c_size := p.o_size + c.length,
                crc := crc32 c p.crc }, c) := by
  unfold procProcess
  simp [hp]

theorem procTail_store (C : Compressor) (p : PState C.S) (hp : p.deflate = false) :
    procTail C p = (p, []) := by
  unfold procTail
  simp [hp]

/-- The whole store-mode processing loop: outputs are exactly the
inputs, both counters end at the total input length, and the CRC is
the CRC of the concatenated input. -/
theorem procFold_store (C : Compressor) (p : PState C.S) (cs : List (List Nat))
    (hp : p.deflate = false) (hc : p.c_size = p.o_size) :
    (procFold C p cs).2 = cs ∧
    (procFold C p cs).1.o_size = p.o_size + cs.flatten.length ∧
    (procFold C p cs).1.c_size = p.o_size + cs.flatten.length ∧
    (procFold C p cs).1.deflate = false ∧
    (procFold C p cs).1.cst = p.cst := by
  induction cs generalizing p with
  | nil => simp [procFold, hp, hc]
  | cons c rest ih =>
      have hstep := procProcess_store C p c hp
      obtain ⟨h1, h2, h3, h4, h5⟩ := ih
        (p := { p with o_size := p.o_size + c.length, c_size := p.o_size + c.length,
                       crc := crc32 c p.crc }) (by simpa using hp) rfl
      simp only [procFold, hstep, List.flatten_cons, List.length_append]
      refine ⟨by simp [h1], by simpa [Nat.add_assoc] using h2,
        by simpa [Nat.add_assoc] using h3, h4, h5⟩

theorem chunksOfAux_flatten (fuel n : Nat) (l : List Nat)
    (hn : 0 < n) (hf : l.length ≤ fuel) : (chunksOfAux fuel n l).flatten = l := by
  induction fuel generalizing l with
  | zero =>
      cases l with
      | nil => rfl
      | cons x xs => simp at hf
  | succ fuel ih =>
      cases l with
      | nil => rfl
      | cons x xs =>
          have hlen : ((x :: xs).drop n).length ≤ fuel := by
            simp only [List.length_drop]
            have : 0 < (x :: xs).length := by simp
            omega
          simp only [chunksOfAux, List.flatten_cons, ih _ hlen]
          exact List.take_append_drop ..

/-- Reading a file in `chunksize` blocks reproduces its contents when
the chunk size is positive. -/
theorem chunksOf_flatten (n : Nat) (l : List Nat) (hn : 0 < n) :
    (chunksOf n l).flatten = l := by
  unfold chunksOf
  rw [if_neg (Nat.pos_iff_ne_zero.mp hn)]
  exact chunksOfAux_flatten _ _ _ hn le_rfl

theorem dosTime_lt (dt : DT) : dosTime dt < 65536 :=
  lt_of_le_of_lt Nat.and_le_right (by decide)

theorem dosDate_lt (dt : DT) : dosDate dt < 65536 :=
  lt_of_le_of_lt Nat.and_le_right (by decide)

/-- A successful `zip64_required` either found ZIP64 already enabled or
performed the auto upgrade; it is refused (`Zip64RequiredError`) when
the mode was pinned to `False`. -/
theorem zip64_required_cases (s s' : ZState) (h : zip64_required s = .ok s') :
    (s.zip64 = some true ∧ s' = s) ∨
    (s.zip64 = none ∧
      s' = { s with zip64 := some true, zip64headers := true, version := ZIP64_VERSION }) := by
  unfold zip64_required at h
  by_cases h1 : s.zip64 = some true
  · rw [if_pos h1] at h
    exact Or.inl ⟨h1, (Except.ok.inj h).symm⟩
  · rw [if_neg h1] at h
    by_cases h2 : s.zip64 = some false
    · rw [if_pos h2] at h
      exact absurd h (by simp)
    · have hz : s.zip64 = none := by
        cases hv : s.zip64 with
        | none => rfl
        | some b => cases b <;> simp_all
      rw [if_neg h2] at h
      exact Or.inr ⟨hz, (Except.ok.inj h).symm⟩

theorem resolveSource_state (st : ZState) (d : SrcData) (st' : ZState) (src : Src)
    (h : resolveSource st d = .ok (st', src)) :
    st' = st ∨ (st.zip64 = none ∧
      st' = { st with zip64 := some true, zip64headers := true, version := ZIP64_VERSION }) := by
  unfold resolveSource at h
  cases hf : d.file with
  | some f =>
      rw [hf] at h
      dsimp only at h
      by_cases hb : f.content.length > ZIP32_LIMIT
      · rw [if_pos hb] at h
        cases hz : zip64_required st with
        | error e => rw [hz] at h; exact absurd h (by simp)
        | ok st2 =>
            rw [hz] at h
            have hp := Except.ok.inj h
            have hst : st2 = st' := congrArg Prod.fst hp
            rcases zip64_required_cases st st2 hz with ⟨_, h2⟩ | ⟨hn, h2⟩
            · exact Or.inl (hst ▸ h2)
            · exact Or.inr ⟨hn, hst ▸ h2⟩
      · rw [if_neg hb] at h
        have hp := Except.ok.inj h
        exact Or.inl (congrArg Prod.fst hp).symm
  | none =>
      rw [hf] at h
      dsimp only at h
      cases hs : d.stream with
      | some cs =>
          rw [hs] at h
          dsimp only at h
          have hp := Except.ok.inj h
          exact Or.inl (congrArg Prod.fst hp).symm
      | none => rw [hs] at h; dsimp only at h; exact absurd h (by simp)

/-- Normalization returns either the untouched archive state or the
state after the (auto-mode) ZIP64 upgrade. -/
theorem createFileStruct_state (st : ZState) (dt : DT) (d : SrcData)
    (st' : ZState) (fs : FileStruct)
    (h : createFileStruct st dt d = .ok (st', fs)) :
    st' = st ∨ (st.zip64 = none ∧
      st' = { st with zip64 := some true, zip64headers := true, version := ZIP64_VERSION }) := by
  unfold createFileStruct at h
  cases hr : resolveSource st d with
  | error e => rw [hr] at h; exact absurd h (by simp)
  | ok pr =>
      obtain ⟨st2, src⟩ := pr
      rw [hr] at h
      dsimp only at h
      by_cases hc : d.compression = none ∨ d.compression = some "deflate"
      · rw [if_pos hc] at h
        cases hn : nameOf d with
        | error e => rw [hn] at h; exact absurd h (by simp)
        | ok name =>
            rw [hn] at h
            have hp := Except.ok.inj h
            have hst : st2 = st' := congrArg Prod.fst hp
            exact hst ▸ resolveSource_state st d st2 src hr
      · rw [if_neg hc] at h
        exact absurd h (by simp)

/-- A successful local file header starts with the `PK\x03\x04` magic. -/
theorem makeLocalFileHeader_shape (s : ZState) (fs : FileStruct) (b : List Nat)
    (h : makeLocalFileHeader s fs = .ok b) : ∃ r, b = LF_MAGIC ++ r := by
  unfold makeLocalFileHeader at h
  dsimp only at h
  split at h
  all_goals try split at h
  all_goals
    first
      | (have hb := Except.ok.inj h
         simp only [List.append_assoc] at hb
         exact ⟨_, hb.symm⟩)
      | exact absurd h (by simp)

/-- What `_make_data_descriptor` does to the file struct and the
descriptor bytes it emits. -/
theorem makeDataDescriptor_ok (s : ZState) (fs : FileStruct) (crc org comp : Nat)
    (fd : FileStruct × List Nat) (h : makeDataDescriptor s fs crc org comp = .ok fd) :
    fd.1 = { fs with crc := crc % 4294967296, size := org, csize := comp } ∧
    (s.use_ddmagic = true →
      fd.2.take 8 = DD_MAGIC ++ leBytes 4 (crc % 4294967296)) := by
  unfold makeDataDescriptor at h
  dsimp only at h
  split at h
  all_goals try split at h
  all_goals
    first
      | (have hp := Except.ok.inj h
         refine ⟨by rw [← hp], ?_⟩
         intro hm
         rw [← hp]
         dsimp only
         rw [if_pos hm]
         rfl)
      | exact absurd h (by simp)

/-- Structure of a successful single-member emission: the local header
first, then the processed data (plus optional tail), then the data
descriptor; the returned struct is the descriptor-updated one. -/
theorem streamSingleFile_ok (C : Compressor) (s : ZState) (fs : FileStruct)
    (fs' : FileStruct) (outs : List (List Nat))
    (h : streamSingleFile C s fs = .ok (fs', outs)) :
    ∃ hdr mid dd p0,
      outs = hdr :: (mid ++ [dd]) ∧
      makeLocalFileHeader s fs = .ok hdr ∧
      processorInit C fs.cmethod = .ok p0 ∧
      (let r := procFold C p0 (dataGenerator s.chunksize fs.src)
       let t := procTail C r.1
       mid = (if t.2 = [] then r.2 else r.2 ++ [t.2]) ∧
       makeDataDescriptor s fs t.1.crc t.1.o_size t.1.c_size = .ok (fs', dd)) := by
  unfold streamSingleFile at h
  cases h1 : makeLocalFileHeader s fs with
  | error e => rw [h1] at h; exact absurd h (by simp)
  | ok hdr =>
    rw [h1] at h
    dsimp only at h
    cases h2 : processorInit C fs.cmethod with
    | error e => rw [h2] at h; exact absurd h (by simp)
    | ok p0 =>
      rw [h2] at h
      dsimp only at h
      cases h3 : makeDataDescriptor s fs
          (procTail C (procFold C p0 (dataGenerator s.chunksize fs.src)).1).1.crc
          (procTail C (procFold C p0 (dataGenerator s.chunksize fs.src)).1).1.o_size
          (procTail C (procFold C p0 (dataGenerator s.chunksize fs.src)).1).1.c_size with
      | error e => rw [h3] at h; exact absurd h (by simp)
      | ok fd =>
        rw [h3] at h
        dsimp only at h
        have hp := Except.ok.inj h
        have hfs : fd.1 = fs' := congrArg Prod.fst hp
        have houts := congrArg Prod.snd hp
        dsimp only at houts
        refine ⟨hdr, _, fd.2, p0, houts.symm, rfl, rfl, rfl, ?_⟩
        rw [← hfs]
        exact h3

/-- A successful central-directory file header is only produced when
ZIP64 headers are off, and starts with the `PK\x01\x02` magic. -/
theorem makeCdirFileHeader_shape (s : ZState) (fs : FileStruct) (b : List Nat)
    (h : makeCdirFileHeader s fs = .ok b) :
    s.zip64headers = false ∧ ∃ r, b = CDFH_MAGIC ++ r := by
  unfold makeCdirFileHeader at h
  split at h
  · exact absurd h (by simp)
  · rename_i hz
    refine ⟨by simpa using hz, ?_⟩
    split at h
    · have hb := Except.ok.inj h
      simp only [List.append_assoc] at hb
      exact ⟨_, hb.symm⟩
    · exact absurd h (by simp)

/-- A successful standard EOCD record outside ZIP64 mode: its stored
entry counts, central-directory size and offset are the true tracked
values, all within their field widths. -/
theorem makeCdend_ok (s : ZState) (b : List Nat) (h : makeCdend s = .ok b)
    (hz : s.zip64headers = false) :
    s.files.length < 65536 ∧ s.cdir_size < 4294967296 ∧ s.off < 4294967296 ∧
    b = CD_END_MAGIC ++ leBytes 2 0 ++ leBytes 2 0 ++ leBytes 2 s.files.length ++
        leBytes 2 s.files.length ++ leBytes 4 s.cdir_size ++ leBytes 4 s.off ++
        leBytes 2 0 := by
  unfold makeCdend at h
  rw [hz] at h
  dsimp only at h
  simp only [Bool.false_eq_true, if_false] at h
  split at h
  · rename_i hg
    exact ⟨hg.1, hg.2.1, hg.2.2, (Except.ok.inj h).symm⟩
  · exact absurd h (by simp)

/-- Effect of one member iteration of `ZipStream.stream` on the
archive state and the chunks it yields. -/
theorem processMember_ok (C : Compressor) (dt : DT) (s : ZState) (d : SrcData)
    (s1 : ZState) (cs : List (List Nat))
    (h : processMember C dt s d = .ok (s1, cs)) :
    s1.off = s.off + cs.flatten.length ∧
    s1.cdir_size = s.cdir_size ∧
    s1.chunksize = s.chunksize ∧
    s1.use_ddmagic = s.use_ddmagic ∧
    (∃ fs', s1.files = s.files ++ [fs'] ∧ fs'.offset = s.off) ∧
    ((s1.zip64 = s.zip64 ∧ s1.zip64headers = s.zip64headers ∧ s1.version = s.version) ∨
      (s.zip64 = none ∧ s1.zip64 = some true ∧ s1.zip64headers = true ∧
        s1.version = ZIP64_VERSION)) ∧
    (∃ hr rest, cs = (LF_MAGIC ++ hr) :: rest) := by
  unfold processMember at h
  cases h1 : createFileStruct s dt d with
  | error e => rw [h1] at h; exact absurd h (by simp)
  | ok pr =>
    obtain ⟨s2, fs⟩ := pr
    rw [h1] at h
    dsimp only at h
    cases h2 : streamSingleFile C s2 { fs with offset := s2.off } with
    | error e => rw [h2] at h; exact absurd h (by simp)
    | ok pr2 =>
      obtain ⟨fs2, chunks⟩ := pr2
      rw [h2] at h
      dsimp only at h
      have hp := Except.ok.inj h
      have hs1 : s1 = { s2 with off := s2.off + chunks.flatten.length,
                                files := s2.files ++ [fs2] } :=
        (congrArg Prod.fst hp).symm
      have hcs : cs = chunks := (congrArg Prod.snd hp).symm
      have hstate : s2.off = s.off ∧ s2.files = s.files ∧ s2.cdir_size = s.cdir_size ∧
          s2.chunksize = s.chunksize ∧ s2.use_ddmagic = s.use_ddmagic ∧
          ((s2.zip64 = s.zip64 ∧ s2.zip64headers = s.zip64headers ∧
              s2.version = s.version) ∨
            (s.zip64 = none ∧ s2.zip64 = some true ∧ s2.zip64headers = true ∧
              s2.version = ZIP64_VERSION)) := by
        rcases createFileStruct_state s dt d s2 fs h1 with rfl | ⟨hn, h2'⟩
        · exact ⟨rfl, rfl, rfl, rfl, rfl, Or.inl ⟨rfl, rfl, rfl⟩⟩
        · rw [h2']
          exact ⟨rfl, rfl, rfl, rfl, rfl, Or.inr ⟨hn, rfl, rfl, rfl⟩⟩
      obtain ⟨ho, hf, hcd, hck, hdd, hz⟩ := hstate
      obtain ⟨hdr, mid, dd, p0, houts, hlf, hpi, hrest⟩ :=
        streamSingleFile_ok C s2 { fs with offset := s2.off } fs2 chunks h2
      obtain ⟨hmid, hdesc⟩ := hrest
      obtain ⟨hfs2, _⟩ := makeDataDescriptor_ok s2 { fs with offset := s2.off } _ _ _
        (fs2, dd) hdesc
      obtain ⟨hr, hhdr⟩ := makeLocalFileHeader_shape s2 { fs with offset := s2.off } hdr hlf
      refine ⟨?_, ?_, ?_, ?_, ⟨fs2, ?_, ?_⟩, ?_, ⟨hr, mid ++ [dd], ?_⟩⟩
      · rw [hs1, hcs]; dsimp only; rw [ho]
      · rw [hs1]; dsimp only; exact hcd
      · rw [hs1]; dsimp only; exact hck
      · rw [hs1]; dsimp only; exact hdd
      · rw [hs1]; dsimp only; rw [hf]
      · rw [show fs2 = _ from hfs2]; exact ho
      · rw [hs1]; dsimp only; exact hz
      · rw [hcs, houts, hhdr]

/-- The running offset is advanced by exactly the bytes emitted, and
the bookkeeping invariants of the member loop. -/
theorem membersLoop_ok (C : Compressor) (dt : DT) (srcs : List SrcData) :
    ∀ s s' cs, membersLoop C dt s srcs = (s', cs, none) →
    s'.off = s.off + cs.flatten.length ∧
    s'.cdir_size = s.cdir_size ∧
    s'.use_ddmagic = s.use_ddmagic ∧
    ((s.zip64headers = true → s.files ≠ []) →
      (s'.zip64headers = true → s'.files ≠ [])) ∧
    (s.zip64 = some false → s'.zip64 = some false) := by
  induction srcs with
  | nil =>
      intro s s' cs h
      unfold membersLoop at h
      have hs : s = s' := congrArg (·.1) h
      have hcs : ([] : List (List Nat)) = cs := congrArg (·.2.1) h
      subst hs
      rw [← hcs]
      simp
  | cons d rest ih =>
      intro s s' cs h
      unfold membersLoop at h
      cases hm : processMember C dt s d with
      | error e => rw [hm] at h; simp at h
      | ok pr =>
        obtain ⟨s1, cs1⟩ := pr
        rw [hm] at h
        dsimp only at h
        have h1 : (membersLoop C dt s1 rest).1 = s' := congrArg (·.1) h
        have h2 : cs1 ++ (membersLoop C dt s1 rest).2.1 = cs := congrArg (·.2.1) h
        have h3 : (membersLoop C dt s1 rest).2.2 = none := congrArg (·.2.2) h
        obtain ⟨ho1, hc1, hck1, hdm1, hfiles1, hzdisj1, _⟩ :=
          processMember_ok C dt s d s1 cs1 hm
        have hrec : membersLoop C dt s1 rest =
            ((membersLoop C dt s1 rest).1, (membersLoop C dt s1 rest).2.1,
              (membersLoop C dt s1 rest).2.2) := rfl
        obtain ⟨io, ic, id_, ii, iz⟩ := ih s1 s' (membersLoop C dt s1 rest).2.1
          (by rw [hrec, h1, h3])
        refine ⟨?_, ?_, ?_, ?_, ?_⟩
        · rw [← h2]
          simp only [List.flatten_append, List.length_append]
          rw [io, ho1]
          ring
        · rw [ic, hc1]
        · rw [id_, hdm1]
        · intro _ hz'
          refine ii ?_ hz'
          intro _
          obtain ⟨fs', hfs, _⟩ := hfiles1
          rw [hfs]
          simp
        · intro hzf
          refine iz ?_
          rcases hzdisj1 with ⟨hza, _, _⟩ | ⟨hzn, _⟩
          · rw [hza, hzf]
          · rw [hzn] at hzf; exact absurd hzf (by simp)

/-- The central-directory emission loop: state bookkeeping, one
`PK\x01\x02` chunk per entry, and the fact that it only succeeds on a
non-empty list when ZIP64 headers are off (otherwise the very first
header raises `AttributeError`). -/
theorem cdirLoop_ok (fl : List FileStruct) :
    ∀ s s' cs, cdirLoop s fl = .ok (s', cs) →
    s'.off = s.off ∧ s'.files = s.files ∧ s'.zip64headers = s.zip64headers ∧
    s'.version = s.version ∧ s'.use_ddmagic = s.use_ddmagic ∧
    s'.cdir_size = s.cdir_size + cs.flatten.length ∧
    cs.length = fl.length ∧
    (s.zip64headers = true → fl = []) ∧
    (∀ c ∈ cs, ∃ r, c = CDFH_MAGIC ++ r) := by
  induction fl with
  | nil =>
      intro s s' cs h
      unfold cdirLoop at h
      have hp := Except.ok.inj h
      have hs : s = s' := congrArg Prod.fst hp
      have hcs : ([] : List (List Nat)) = cs := congrArg Prod.snd hp
      subst hs
      rw [← hcs]
      simp
  | cons f rest ih =>
      intro s s' cs h
      unfold cdirLoop at h
      cases h1 : makeCdirFileHeader s f with
      | error e => rw [h1] at h; exact absurd h (by simp)
      | ok c =>
        rw [h1] at h
        dsimp only at h
        cases h2 : cdirLoop { s with cdir_size := s.cdir_size + c.length } rest with
        | error e => rw [h2] at h; exact absurd h (by simp)
        | ok pr =>
          obtain ⟨s2, cs2⟩ := pr
          rw [h2] at h
          dsimp only at h
          have hp := Except.ok.inj h
          have hs : s2 = s' := congrArg Prod.fst hp
          have hcs : c :: cs2 = cs := congrArg Prod.snd hp
          obtain ⟨hz, r, hcr⟩ := makeCdirFileHeader_shape s f c h1
          obtain ⟨io, if_, iz, iv, id_, ic, il, _, im⟩ := ih _ s2 cs2 h2
          subst hs
          rw [← hcs]
          refine ⟨io, if_, iz, iv, id_, ?_, by simp [il], ?_, ?_⟩
          · rw [ic]
            dsimp only
            simp only [List.flatten_cons, List.length_append]
            ring
          · intro hzz
            rw [hzz] at hz
            simp at hz
          · intro x hx
            rcases List.mem_cons.mp hx with rfl | hx2
            · exact ⟨r, hcr⟩
            · exact im x hx2

/-- A successful trailer outside ZIP64 mode: the central-directory
headers followed by a single standard EOCD recording the true entry
count, central-directory size and offset.  (In ZIP64 mode the trailer
only succeeds on an empty entry list, since the first
central-directory header raises `AttributeError`.) -/
theorem endStructures_ok (s s2 : ZState) (ends : List (List Nat))
    (h : endStructures s = .ok (s2, ends))
    (hinv : s.zip64headers = true → s.files ≠ []) :
    s.zip64headers = false ∧
    ∃ cds eocd, ends = cds ++ [eocd] ∧
      s2.files = s.files ∧ s2.off = s.off ∧
      s2.cdir_size = s.cdir_size + cds.flatten.length ∧
      cds.length = s.files.length ∧
      (∀ c ∈ cds, ∃ r, c = CDFH_MAGIC ++ r) ∧
      s.files.length < 65536 ∧ s2.cdir_size < 4294967296 ∧ s.off < 4294967296 ∧
      eocd = CD_END_MAGIC ++ leBytes 2 0 ++ leBytes 2 0 ++ leBytes 2 s.files.length ++
             leBytes 2 s.files.length ++ leBytes 4 s2.cdir_size ++ leBytes 4 s.off ++
             leBytes 2 0 := by
  unfold endStructures at h
  cases hc : cdirLoop s s.files with
  | error e => rw [hc] at h; exact absurd h (by simp)
  | ok pr =>
    obtain ⟨sMid, cds⟩ := pr
    rw [hc] at h
    dsimp only at h
    obtain ⟨io, if_, iz, iv, id_, ic, il, ihz, im⟩ := cdirLoop_ok s.files s sMid cds hc
    have hzf : s.zip64headers = false := by
      cases hzv : s.zip64headers with
      | false => rfl
      | true => exact absurd (ihz hzv) (hinv hzv)
    rw [iz.trans hzf] at h
    simp only [Bool.false_eq_true, if_false] at h
    cases he : makeCdend sMid with
    | error e => rw [he] at h; exact absurd h (by simp)
    | ok eb =>
      rw [he] at h
      dsimp only at h
      have hp := Except.ok.inj h
      have hs : sMid = s2 := congrArg Prod.fst hp
      have hends : cds ++ [] ++ [eb] = ends := congrArg Prod.snd hp
      obtain ⟨b1, b2, b3, hbytes⟩ := makeCdend_ok sMid eb he (iz.trans hzf)
      subst hs
      refine ⟨hzf, cds, eb, by rw [← hends]; simp, if_, io, ic, il,
        im, ?_, ?_, ?_, ?_⟩
      · rw [← if_]; exact b1
      · exact b2
      · rw [← io]; exact b3
      · rw [hbytes, if_, io]

theorem processorInit_zero (C : Compressor) (cm : Option String) (p0 : PState C.S)
    (h : processorInit C cm = .ok p0) :
    p0.crc = 0 ∧ p0.o_size = 0 ∧ p0.c_size = 0 := by
  unfold processorInit at h
  cases cm with
  | none =>
      have hp := Except.ok.inj h
      rw [← hp]
      exact ⟨rfl, rfl, rfl⟩
  | some m =>
      dsimp only at h
      split at h
      · have hp := Except.ok.inj h
        rw [← hp]
        exact ⟨rfl, rfl, rfl⟩
      · exact absurd h (by simp)

/-- A store-mode member always streams successfully provided the local
header fields fit their widths and the total size fits the descriptor
field width. -/
theorem streamSingleFile_store_ok (C : Compressor) (s : ZState) (fs : FileStruct)
    (hm : fs.cmethod = none)
    (hg : s.version < 65536 ∧ fs.flags < 65536 ∧ fs.cmpr_id < 65536 ∧
          fs.mod_time < 65536 ∧ fs.mod_date < 65536 ∧ fs.fname.length < 65536 ∧
          (if s.zip64headers = true then makeZip64LocalExtra 0 0
           else ([] : List Nat)).length < 65536)
    (hsz : (dataGenerator s.chunksize fs.src).flatten.length <
           if s.zip64headers = true then 18446744073709551616 else 4294967296) :
    ∃ fs' outs, streamSingleFile C s fs = .ok (fs', outs) := by
  unfold streamSingleFile makeLocalFileHeader
  dsimp only
  rw [if_pos hg]
  dsimp only
  rw [hm]
  dsimp only [processorInit]
  obtain ⟨ho1, ho2, ho3, ho4, ho5⟩ :=
    procFold_store C ⟨0, 0, 0, false, C.init⟩ (dataGenerator s.chunksize fs.src) rfl rfl
  rw [procTail_store C _ ho4]
  dsimp only
  rw [if_pos rfl]
  cases hd : makeDataDescriptor s fs
      (procFold C ⟨0, 0, 0, false, C.init⟩ (dataGenerator s.chunksize fs.src)).1.crc
      (procFold C ⟨0, 0, 0, false, C.init⟩ (dataGenerator s.chunksize fs.src)).1.o_size
      (procFold C ⟨0, 0, 0, false, C.init⟩ (dataGenerator s.chunksize fs.src)).1.c_size with
  | ok fd =>
      exact ⟨_, _, rfl⟩
  | error e =>
      exfalso
      unfold makeDataDescriptor at hd
      dsimp only at hd
      split at hd
      next hzt =>
        split at hd
        · exact absurd hd (by simp)
        · rename_i hcond
          rw [if_pos hzt] at hsz
          exact hcond ⟨by rw [ho3]; simpa using hsz, by rw [ho2]; simpa using hsz⟩
      next hzf =>
        split at hd
        · exact absurd hd (by simp)
        · rename_i hcond
          rw [if_neg hzf] at hsz
          exact hcond ⟨by rw [ho3]; simpa using hsz, by rw [ho2]; simpa using hsz⟩

theorem zipInit_eq (z : Option Bool) (cz : Nat) : zipInit z cz = .ok (initState z cz) := by
  cases z with
  | none => rfl
  | some b => cases b with
    | false => rfl
    | true => rfl

theorem nameOf_error (d : SrcData) (e : PyErr) (h : nameOf d = .error e) :
    e = PyErr.KeyError := by
  unfold nameOf at h
  cases hn : d.name with
  | some n => rw [hn] at h; simp at h
  | none =>
      rw [hn] at h
      dsimp only at h
      cases hf : d.file with
      | some f => rw [hf] at h; simp at h
      | none =>
          rw [hf] at h
          exact (Except.error.inj h).symm

theorem membersLoop_append (C : Compressor) (dt : DT) (as : List SrcData) :
    ∀ s s1 cs1, membersLoop C dt s as = (s1, cs1, none) → ∀ bs : List SrcData,
    membersLoop C dt s (as ++ bs) =
      ((membersLoop C dt s1 bs).1, cs1 ++ (membersLoop C dt s1 bs).2.1,
        (membersLoop C dt s1 bs).2.2) := by
  induction as with
  | nil =>
      intro s s1 cs1 h bs
      unfold membersLoop at h
      have hs : s = s1 := congrArg (·.1) h
      have hcs : ([] : List (List Nat)) = cs1 := congrArg (·.2.1) h
      subst hs
      rw [← hcs]
      simp
  | cons d rest ih =>
      intro s s1 cs1 h bs
      unfold membersLoop at h
      cases hm : processMember C dt s d with
      | error e => rw [hm] at h; simp at h
      | ok pr =>
        obtain ⟨s2, cs2⟩ := pr
        rw [hm] at h
        dsimp only at h
        have h1 : (membersLoop C dt s2 rest).1 = s1 := congrArg (·.1) h
        have h2 : cs2 ++ (membersLoop C dt s2 rest).2.1 = cs1 := congrArg (·.2.1) h
        have h3 : (membersLoop C dt s2 rest).2.2 = none := congrArg (·.2.2) h
        have hrec : membersLoop C dt s2 rest =
            ((membersLoop C dt s2 rest).1, (membersLoop C dt s2 rest).2.1,
              (membersLoop C dt s2 rest).2.2) := rfl
        have ihh := ih s2 (membersLoop C dt s2 rest).1 (membersLoop C dt s2 rest).2.1
          (by rw [hrec, h3]) bs
        show (match processMember C dt s d with
          | .error e => (s, [], some e)
          | .ok (s1, cs) =>
            let r := membersLoop C dt s1 (rest ++ bs)
            (r.1, cs ++ r.2.1, r.2.2)) = _
        rw [hm]
        dsimp only
        rw [ihh, h1]
        rw [← h2]
        simp only [List.append_assoc]

theorem membersLoop_nil (C : Compressor) (dt : DT) (s : ZState) :
    membersLoop C dt s [] = (s, [], none) := rfl

theorem membersLoop_cons_ok (C : Compressor) (dt : DT) (s : ZState) (d : SrcData)
    (rest : List SrcData) (s1 : ZState) (cs : List (List Nat))
    (hm : processMember C dt s d = .ok (s1, cs)) :
    membersLoop C dt s (d :: rest) =
      ((membersLoop C dt s1 rest).1, cs ++ (membersLoop C dt s1 rest).2.1,
        (membersLoop C dt s1 rest).2.2) := by
  show (match processMember C dt s d with
    | .error e => (s, [], some e)
    | .ok (s1, cs) =>
      let r := membersLoop C dt s1 rest
      (r.1, cs ++ r.2.1, r.2.2)) = _
  rw [hm]

theorem take_four_lf (r : List Nat) : (LF_MAGIC ++ r).take 4 = LF_MAGIC := rfl

/-! ## Claims -/

/-- C2: building with the ZIP64 selector forced on at construction is
claimed to put a ZIP64 EOCD record and locator in the trailer before
the standard EOCD.  The code's own `test_zip64` asserts exactly that.
In fact `zip64_required` returns early because `self.zip64` is already
truthy, so `__zip64headers` is never set: the archive completes with a
plain EOCD and contains neither the ZIP64 EOCD magic `PK\x06\x06` nor
the locator magic `PK\x06\x07`.  Evaluated here on a one-member
archive built with `zip64 = True`. -/
theorem C2_forced_on_emits_no_zip64_trailer :
    zipInit (some true) 1024 = .ok (initState (some true) 1024) ∧
    (initState (some true) 1024).zip64headers = false ∧
    (streamZip idCompressor dt0 (some true) 1024
      [{ file := none, stream := some [[104, 105]], name := some [97],
         compression := none }]).2 = none ∧
    countSub CD_END_MAGIC64
      (streamZip idCompressor dt0 (some true) 1024
        [{ file := none, stream := some [[104, 105]], name := some [97],
           compression := none }]).1.flatten = 0 ∧
    countSub CD_LOC64_MAGIC
      (streamZip idCompressor dt0 (some true) 1024
        [{ file := none, stream := some [[104, 105]], name := some [97],
           compression := none }]).1.flatten = 0 ∧
    countSub CD_END_MAGIC
      (streamZip idCompressor dt0 (some true) 1024
        [{ file := none, stream := some [[104, 105]], name := some [97],
           compression := none }]).1.flatten = 1 := by
  decide

/-- C3 (counterexample): the claim says a member whose compression
selector is the explicit value `"store"` is accepted.  It is not: the
admitted values are only `None` (unset) and `"deflate"`, so an explicit
`"store"` raises `UnsupportedCompressionError` during normalization. -/
theorem C3_explicit_store_rejected :
    createFileStruct (initState (some false) 1024) dt0
      { file := none, stream := some [[1, 2]], name := some [97],
        compression := some "store" } =
      .error PyErr.UnsupportedCompressionError ∧
    (Except.error PyErr.UnsupportedCompressionError :
        Except PyErr (ZState × FileStruct)) ≠
      .error PyErr.KeyError := by
  decide

/-- C3 (amended): for a member description whose source resolution
succeeds (a `'file'` or `'stream'` key is present, and a too-large file
source does not hit a pinned-off ZIP64 mode), normalization raises
`UnsupportedCompressionError` exactly when the compression selector is
neither unset (`None`, meaning store) nor `"deflate"`; in particular
the explicit string `"store"` raises while an unset selector does
not. -/
theorem C3_unsupported_compression_iff (s : ZState) (dt : DT) (d : SrcData)
    (hsrc : d.file.isSome ∨ d.stream.isSome)
    (h64 : ∀ f, d.file = some f → f.content.length > ZIP32_LIMIT → s.zip64 ≠ some false) :
    createFileStruct s dt d = .error PyErr.UnsupportedCompressionError ↔
      (d.compression ≠ none ∧ d.compression ≠ some "deflate") := by
  have hres : ∃ st' src, resolveSource s d = .ok (st', src) := by
    unfold resolveSource
    cases hf : d.file with
    | some f =>
        dsimp only
        by_cases hb : f.content.length > ZIP32_LIMIT
        · rw [if_pos hb]
          have hz := h64 f hf hb
          unfold zip64_required
          by_cases h1 : s.zip64 = some true
          · rw [if_pos h1]; exact ⟨_, _, rfl⟩
          · rw [if_neg h1, if_neg hz]; exact ⟨_, _, rfl⟩
        · rw [if_neg hb]; exact ⟨_, _, rfl⟩
    | none =>
        dsimp only
        cases hs2 : d.stream with
        | some cs => exact ⟨_, _, rfl⟩
        | none =>
            rw [hf, hs2] at hsrc
            simp at hsrc
  obtain ⟨st', src, hres⟩ := hres
  unfold createFileStruct
  rw [hres]
  dsimp only
  by_cases hc : d.compression = none ∨ d.compression = some "deflate"
  · rw [if_pos hc]
    constructor
    · intro h
      exfalso
      cases hn : nameOf d with
      | error e =>
          rw [hn] at h
          dsimp only at h
          rw [nameOf_error d e hn] at h
          exact absurd (Except.error.inj h) (by simp)
      | ok name => rw [hn] at h; simp at h
    · intro hbad
      rcases hc with hc | hc
      · exact absurd hc hbad.1
      · exact absurd hc hbad.2
  · rw [if_neg hc]
    push_neg at hc
    exact ⟨fun _ => hc, fun _ => rfl⟩

/-- C3 witness: a concrete member with compression `"bzip2"` (a stream
source, so source resolution succeeds) raises
`UnsupportedCompressionError` — by the amended equivalence. -/
theorem C3_unsupported_compression_iff_witness :
    createFileStruct (initState (some false) 1024) dt0
      { file := none, stream := some [[1, 2]], name := some [97],
        compression := some "bzip2" } =
      .error PyErr.UnsupportedCompressionError :=
  (C3_unsupported_compression_iff (initState (some false) 1024) dt0
    { file := none, stream := some [[1, 2]], name := some [97],
      compression := some "bzip2" }
    (by decide) (by intro f hf; simp at hf)).mpr (by decide)

/-- C9: in store mode (compression selector unset, Python `None`) the
Entry Processor returns every chunk unchanged, re-establishes the
invariant compressed-size = original-size after every `process` call
(the constructed initial state satisfies it with 0 = 0), and `tail`
returns the empty byte string while changing nothing. -/
theorem C9_store_processor_invariants (C : Compressor) (p : PState C.S)
    (chunk : List Nat) (hp : p.deflate = false) :
    processorInit C none = .ok ⟨0, 0, 0, false, C.init⟩ ∧
    (procProcess C p chunk).2 = chunk ∧
    (procProcess C p chunk).1.c_size = (procProcess C p chunk).1.o_size ∧
    (procProcess C p chunk).1.deflate = false ∧
    procTail C p = (p, []) := by
  have h := procProcess_store C p chunk hp
  exact ⟨rfl, by rw [h], by rw [h], by rw [h]; exact hp, procTail_store C p hp⟩

/-- C9 witness: the invariants at a concrete store-mode state and
chunk. -/
theorem C9_store_processor_invariants_witness :
    (procProcess idCompressor ⟨0, 0, 0, false, ()⟩ [5, 6, 7]).2 = [5, 6, 7] ∧
    (procProcess idCompressor ⟨0, 0, 0, false, ()⟩ [5, 6, 7]).1.c_size =
      (procProcess idCompressor ⟨0, 0, 0, false, ()⟩ [5, 6, 7]).1.o_size ∧
    procTail idCompressor (⟨0, 0, 0, false, ()⟩ : PState idCompressor.S) =
      (⟨0, 0, 0, false, ()⟩, []) := by
  obtain ⟨_, h2, h3, _, h5⟩ :=
    C9_store_processor_invariants idCompressor ⟨0, 0, 0, false, ()⟩ [5, 6, 7] rfl
  exact ⟨h2, h3, h5⟩

/-- C4 (counterexample): the claim asks for exactly one occurrence of
the EOCD magic `50 4B 05 06` in the whole output, but member data is
copied verbatim: a stream member whose content is exactly those four
bytes yields an archive containing the magic twice. -/
theorem C4_two_eocd_magic_occurrences :
    (streamZip idCompressor dt0 (some false) 1024
      [{ file := none, stream := some [[0x50, 0x4B, 0x05, 0x06]],
         name := some [97], compression := none }]).2 = none ∧
    countSub CD_END_MAGIC
      (streamZip idCompressor dt0 (some false) 1024
        [{ file := none, stream := some [[0x50, 0x4B, 0x05, 0x06]],
           name := some [97], compression := none }]).1.flatten = 2 := by
  decide

/-- C4 (amended): for every input member list whose synchronous stream
completes without an exception, the concatenated output ends with a
single EOCD record occupying its final 22 bytes, whose stored
central-directory offset plus central-directory size equals the total
output length minus 22; the 4-byte EOCD magic may additionally occur
earlier (e.g. inside member data), so the record is unique only under
end-anchored scanning. -/
theorem C4_eocd_tail_equation (C : Compressor) (dt : DT) (z : Option Bool)
    (cz : Nat) (srcs : List SrcData)
    (h : (streamZip C dt z cz srcs).2 = none) :
    ∃ entries cds cdo,
      22 ≤ (streamZip C dt z cz srcs).1.flatten.length ∧
      (streamZip C dt z cz srcs).1.flatten.drop
          ((streamZip C dt z cz srcs).1.flatten.length - 22) =
        CD_END_MAGIC ++ leBytes 2 0 ++ leBytes 2 0 ++ leBytes 2 entries ++
        leBytes 2 entries ++ leBytes 4 cds ++ leBytes 4 cdo ++ leBytes 2 0 ∧
      entries < 65536 ∧ cds < 4294967296 ∧ cdo < 4294967296 ∧
      cdo + cds + 22 = (streamZip C dt z cz srcs).1.flatten.length := by
  unfold streamZip at h ⊢
  rw [zipInit_eq] at h ⊢
  dsimp only at h ⊢
  unfold streamFrom at h ⊢
  dsimp only at h ⊢
  cases herr : (membersLoop C dt (initState z cz) srcs).2.2 with
  | some e =>
      rw [herr] at h
      dsimp only at h
      rw [herr] at h
      simp at h
  | none =>
      rw [herr] at h
      dsimp only at h
      dsimp only
      cases hes : endStructures (membersLoop C dt (initState z cz) srcs).1 with
      | error e =>
          rw [hes] at h
          simp at h
      | ok pr =>
          obtain ⟨s2, ends⟩ := pr
          dsimp only
          have hml : membersLoop C dt (initState z cz) srcs =
              ((membersLoop C dt (initState z cz) srcs).1,
               (membersLoop C dt (initState z cz) srcs).2.1, none) := by
            rw [← herr]
          obtain ⟨hoff, hcd, _, hinv, _⟩ :=
            membersLoop_ok C dt srcs (initState z cz) _ _ hml
          have hinv' : (membersLoop C dt (initState z cz) srcs).1.zip64headers = true →
              (membersLoop C dt (initState z cz) srcs).1.files ≠ [] :=
            hinv (fun hh => by simp [initState] at hh)
          obtain ⟨hzf, cds, eocd, hends, hfiles2, hoff2, hcd2, hlencds, hmagic,
            hb1, hb2, hb3, heocd⟩ := endStructures_ok _ s2 ends hes hinv'
          have hlen22 : eocd.length = 22 := by
            rw [heocd]
            simp [CD_END_MAGIC, leBytes_length]
          have hoffv : (membersLoop C dt (initState z cz) srcs).1.off =
              (membersLoop C dt (initState z cz) srcs).2.1.flatten.length := by
            simpa [initState] using hoff
          have hcdv : (membersLoop C dt (initState z cz) srcs).1.cdir_size = 0 := by
            simpa [initState] using hcd
          have hcds : s2.cdir_size = cds.flatten.length := by
            rw [hcd2, hcdv]
            simp
          have hflat : ((membersLoop C dt (initState z cz) srcs).2.1 ++ ends).flatten =
              ((membersLoop C dt (initState z cz) srcs).2.1.flatten ++ cds.flatten) ++
                eocd := by
            rw [hends]
            simp [List.flatten_append, List.append_assoc]
          refine ⟨(membersLoop C dt (initState z cz) srcs).1.files.length,
            s2.cdir_size, (membersLoop C dt (initState z cz) srcs).1.off,
            ?_, ?_, hb1, hb2, hb3, ?_⟩
          · rw [hflat]
            simp only [List.length_append, hlen22]
            omega
          · rw [hflat]
            have hsub : ((((membersLoop C dt (initState z cz) srcs).2.1.flatten ++
                cds.flatten) ++ eocd).length) - 22 =
                ((membersLoop C dt (initState z cz) srcs).2.1.flatten ++
                  cds.flatten).length := by
              simp only [List.length_append, hlen22]
              omega
            rw [hsub, List.drop_left, heocd]
          · rw [hflat]
            simp only [List.length_append, hlen22]
            rw [hoffv, hcds]

/-- C4 witness: the amended statement at a concrete two-chunk store
archive. -/
theorem C4_eocd_tail_equation_witness :
    ∃ entries cds cdo,
      22 ≤ (streamZip idCompressor dt0 (some false) 1024
        [{ file := none, stream := some [[9, 8], [7]], name := some [97],
           compression := none }]).1.flatten.length ∧
      (streamZip idCompressor dt0 (some false) 1024
        [{ file := none, stream := some [[9, 8], [7]], name := some [97],
           compression := none }]).1.flatten.drop
          ((streamZip idCompressor dt0 (some false) 1024
            [{ file := none, stream := some [[9, 8], [7]], name := some [97],
               compression := none }]).1.flatten.length - 22) =
        CD_END_MAGIC ++ leBytes 2 0 ++ leBytes 2 0 ++ leBytes 2 entries ++
        leBytes 2 entries ++ leBytes 4 cds ++ leBytes 4 cdo ++ leBytes 2 0 ∧
      entries < 65536 ∧ cds < 4294967296 ∧ cdo < 4294967296 ∧
      cdo + cds + 22 = (streamZip idCompressor dt0 (some false) 1024
        [{ file := none, stream := some [[9, 8], [7]], name := some [97],
           compression := none }]).1.flatten.length :=
  C4_eocd_tail_equation idCompressor dt0 (some false) 1024
    [{ file := none, stream := some [[9, 8], [7]], name := some [97],
       compression := none }] (by decide)

/-- C5: streaming two members with differing names and contents yields
a central directory with exactly two file-header entries (two
`PK\x01\x02` chunks before the EOCD, matching the two recorded file
structs), whose recorded offsets are strictly increasing; the first
recorded offset is 0 and the second is the total byte length of the
first member's emission (header + data + descriptor), and at each
recorded offset the concatenated output carries a local-file-header
magic — the offsets are exactly where the members' local headers
begin, driven solely by the running offset advanced per emitted
chunk. -/
theorem C5_two_members_offsets (C : Compressor) (dt : DT) (z : Option Bool)
    (cz : Nat) (d1 d2 : SrcData) (hname : d1.name ≠ d2.name)
    (hcont : d1.file ≠ d2.file ∨ d1.stream ≠ d2.stream)
    (h : (streamFrom C dt (initState z cz) [d1, d2]).2.2 = none) :
    ∃ fs1 fs2 m1 m2 cd1 cd2 eocd,
      (streamFrom C dt (initState z cz) [d1, d2]).1.files = [fs1, fs2] ∧
      (streamFrom C dt (initState z cz) [d1, d2]).2.1 =
        m1 ++ m2 ++ [cd1, cd2, eocd] ∧
      (∃ r, cd1 = CDFH_MAGIC ++ r) ∧ (∃ r, cd2 = CDFH_MAGIC ++ r) ∧
      fs1.offset = 0 ∧ fs2.offset = m1.flatten.length ∧
      fs1.offset < fs2.offset ∧
      ((streamFrom C dt (initState z cz) [d1, d2]).2.1.flatten.drop
        fs1.offset).take 4 = LF_MAGIC ∧
      ((streamFrom C dt (initState z cz) [d1, d2]).2.1.flatten.drop
        fs2.offset).take 4 = LF_MAGIC := by
  cases hm1 : processMember C dt (initState z cz) d1 with
  | error e =>
      exfalso
      have hml : membersLoop C dt (initState z cz) [d1, d2] =
          (initState z cz, [], some e) := by
        unfold membersLoop
        rw [hm1]
      unfold streamFrom at h
      rw [hml] at h
      simp at h
  | ok pr1 =>
    obtain ⟨s1, m1⟩ := pr1
    cases hm2 : processMember C dt s1 d2 with
    | error e =>
        exfalso
        have hml : membersLoop C dt (initState z cz) [d1, d2] =
            (s1, m1 ++ [], some e) := by
          rw [membersLoop_cons_ok C dt _ d1 [d2] s1 m1 hm1]
          unfold membersLoop
          rw [hm2]
        unfold streamFrom at h
        rw [hml] at h
        simp at h
    | ok pr2 =>
      obtain ⟨s2, m2⟩ := pr2
      have hml : membersLoop C dt (initState z cz) [d1, d2] =
          (s2, m1 ++ (m2 ++ []), none) := by
        rw [membersLoop_cons_ok C dt _ d1 [d2] s1 m1 hm1,
            membersLoop_cons_ok C dt s1 d2 [] s2 m2 hm2, membersLoop_nil]
      cases hes : endStructures s2 with
      | error e =>
          exfalso
          unfold streamFrom at h
          rw [hml] at h
          dsimp only at h
          rw [hes] at h
          simp at h
      | ok pr3 =>
        obtain ⟨s3, ends⟩ := pr3
        have hsf : streamFrom C dt (initState z cz) [d1, d2] =
            (s3, (m1 ++ (m2 ++ [])) ++ ends, none) := by
          unfold streamFrom
          rw [hml]
          dsimp only
          rw [hes]
        obtain ⟨ho1, hc1, hk1, hdm1, ⟨fsA, hfA, hoffA⟩, _, hra, resta, hm1s⟩ :=
          processMember_ok C dt (initState z cz) d1 s1 m1 hm1
        obtain ⟨ho2, hc2, hk2, hdm2, ⟨fsB, hfB, hoffB⟩, _, hrb, restb, hm2s⟩ :=
          processMember_ok C dt s1 d2 s2 m2 hm2
        have hfiles : s2.files = [fsA, fsB] := by
          rw [hfB, hfA]
          simp [initState]
        have hinv' : s2.zip64headers = true → s2.files ≠ [] := fun _ => by
          rw [hfiles]
          simp
        obtain ⟨hzf, cds, eocd, hends, hfiles3, hoff3, hcd3, hlencds, hmagic,
          _, _, _, _⟩ := endStructures_ok s2 s3 ends hes hinv'
        have hcds2 : cds.length = 2 := by
          rw [hlencds, hfiles]
          rfl
        obtain ⟨cd1, cd2, hcdeq⟩ := List.length_eq_two.mp hcds2
        have hoffA0 : fsA.offset = 0 := by
          rw [hoffA]
          rfl
        have hoffB1 : fsB.offset = m1.flatten.length := by
          rw [hoffB, ho1]
          simp [initState]
        have hm1pos : 0 < m1.flatten.length := by
          rw [hm1s]
          simp only [List.flatten_cons, List.length_append]
          have : LF_MAGIC.length = 4 := rfl
          omega
        refine ⟨fsA, fsB, m1, m2, cd1, cd2, eocd, ?_, ?_, ?_, ?_, hoffA0, hoffB1,
          ?_, ?_, ?_⟩
        · rw [hsf]
          dsimp only
          rw [hfiles3, hfiles]
        · rw [hsf]
          dsimp only
          rw [hends, hcdeq]
          simp
        · exact hmagic cd1 (by rw [hcdeq]; simp)
        · exact hmagic cd2 (by rw [hcdeq]; simp)
        · rw [hoffA0, hoffB1]
          exact hm1pos
        · rw [hsf]
          dsimp only
          rw [hoffA0, List.drop_zero]
          have hB1 : ((m1 ++ (m2 ++ [])) ++ ends).flatten =
              LF_MAGIC ++ (hra ++ (resta.flatten ++ ((m2 ++ []) ++ ends).flatten)) := by
            rw [hm1s]
            simp [List.flatten_append, List.flatten_cons, List.append_assoc]
          rw [hB1, take_four_lf]
        · rw [hsf]
          dsimp only
          rw [hoffB1]
          have hsplit : ((m1 ++ (m2 ++ [])) ++ ends).flatten =
              m1.flatten ++ ((m2 ++ []) ++ ends).flatten := by
            simp [List.flatten_append, List.append_assoc]
          rw [hsplit, List.drop_left]
          have hB2 : ((m2 ++ []) ++ ends).flatten =
              LF_MAGIC ++ (hrb ++ (restb.flatten ++ ends.flatten)) := by
            rw [hm2s]
            simp [List.flatten_append, List.flatten_cons, List.append_assoc]
          rw [hB2, take_four_lf]

/-- C5 witness: two distinct store members (names "a" / "b", contents
`[1]` / `[2, 3]`) instantiate the offset/central-directory
properties. -/
theorem C5_two_members_offsets_witness :
    ∃ fs1 fs2 m1 m2 cd1 cd2 eocd,
      (streamFrom idCompressor dt0 (initState (some false) 1024)
        [{ file := none, stream := some [[1]], name := some [97],
           compression := none },
         { file := none, stream := some [[2, 3]], name := some [98],
           compression := none }]).1.files = [fs1, fs2] ∧
      (streamFrom idCompressor dt0 (initState (some false) 1024)
        [{ file := none, stream := some [[1]], name := some [97],
           compression := none },
         { file := none, stream := some [[2, 3]], name := some [98],
           compression := none }]).2.1 = m1 ++ m2 ++ [cd1, cd2, eocd] ∧
      (∃ r, cd1 = CDFH_MAGIC ++ r) ∧ (∃ r, cd2 = CDFH_MAGIC ++ r) ∧
      fs1.offset = 0 ∧ fs2.offset = m1.flatten.length ∧
      fs1.offset < fs2.offset ∧
      ((streamFrom idCompressor dt0 (initState (some false) 1024)
        [{ file := none, stream := some [[1]], name := some [97],
           compression := none },
         { file := none, stream := some [[2, 3]], name := some [98],
           compression := none }]).2.1.flatten.drop fs1.offset).take 4 =
        LF_MAGIC ∧
      ((streamFrom idCompressor dt0 (initState (some false) 1024)
        [{ file := none, stream := some [[1]], name := some [97],
           compression := none },
         { file := none, stream := some [[2, 3]], name := some [98],
           compression := none }]).2.1.flatten.drop fs2.offset).take 4 =
        LF_MAGIC :=
  C5_two_members_offsets idCompressor dt0 (some false) 1024
    { file := none, stream := some [[1]], name := some [97], compression := none }
    { file := none, stream := some [[2, 3]], name := some [98], compression := none }
    (by decide) (Or.inr (by decide)) (by decide)

/-- C6: for every member streamed from a push-sequence (so the claim's
"every partition of its bytes into chunks") and every compression
choice that constructs, the CRC the Entry Processor accumulates across
`process` calls equals the standard ZIP CRC-32 of the member's full
byte sequence; its 32-bit-masked value is stored in the emitted data
descriptor (bytes 4..8, after the `PK\x07\x08` magic) and is what any
successful central-directory header for that member packs in its CRC
field (the four bytes at offset 16). -/
theorem C6_crc_accumulation_and_storage (C : Compressor) (s : ZState)
    (fs : FileStruct) (chunks : List (List Nat)) (fs' : FileStruct)
    (outs : List (List Nat)) (hsrc : fs.src = Src.s chunks)
    (hdd : s.use_ddmagic = true)
    (h : streamSingleFile C s fs = .ok (fs', outs)) :
    fs'.crc = crc32 chunks.flatten 0 % 4294967296 ∧
    (∃ dd, outs.getLast? = some dd ∧
      dd.take 8 = DD_MAGIC ++ leBytes 4 (crc32 chunks.flatten 0 % 4294967296)) ∧
    (∀ s2 cd, makeCdirFileHeader s2 fs' = .ok cd →
      ∃ pre post, cd = pre ++ leBytes 4 (crc32 chunks.flatten 0 % 4294967296) ++ post ∧
        pre.length = 16) := by
  obtain ⟨hdr, mid, dd, p0, houts, hlf, hpi, hrest⟩ :=
    streamSingleFile_ok C s fs fs' outs h
  obtain ⟨hmid, hdesc⟩ := hrest
  have hp0 := processorInit_zero C fs.cmethod p0 hpi
  have hcrc : (procTail C (procFold C p0 (dataGenerator s.chunksize fs.src)).1).1.crc
      = crc32 chunks.flatten 0 := by
    rw [procTail_crc, procFold_crc, hsrc]
    dsimp only [dataGenerator]
    rw [hp0.1]
  obtain ⟨hfsr, hddm⟩ := makeDataDescriptor_ok s fs _ _ _ (fs', dd) hdesc
  have hcrc' : fs'.crc = crc32 chunks.flatten 0 % 4294967296 := by
    rw [show fs' = _ from hfsr]
    dsimp only
    rw [hcrc]
  refine ⟨hcrc', ⟨dd, ?_, ?_⟩, ?_⟩
  · rw [houts, ← List.cons_append]
    exact List.getLast?_concat ..
  · have hdde := hddm hdd
    rw [hcrc] at hdde
    exact hdde
  · intro s2 cd hcd
    unfold makeCdirFileHeader at hcd
    split at hcd
    · exact absurd hcd (by simp)
    · split at hcd
      · have hb := Except.ok.inj hcd
        simp only [List.append_assoc] at hb
        refine ⟨CDFH_MAGIC ++ leBytes 1 s2.version ++ leBytes 1 3 ++
          leBytes 2 s2.version ++ leBytes 2 fs'.flags ++ leBytes 2 fs'.cmpr_id ++
          leBytes 2 fs'.mod_time ++ leBytes 2 fs'.mod_date,
          leBytes 4 fs'.csize ++ leBytes 4 fs'.size ++ leBytes 2 fs'.fname.length ++
          leBytes 2 0 ++ leBytes 2 0 ++ leBytes 2 0 ++ leBytes 2 0 ++ leBytes 4 0 ++
          leBytes 4 fs'.offset ++ fs'.fname, ?_, ?_⟩
        · have hgoal : (CDFH_MAGIC ++ leBytes 1 s2.version ++ leBytes 1 3 ++
              leBytes 2 s2.version ++ leBytes 2 fs'.flags ++ leBytes 2 fs'.cmpr_id ++
              leBytes 2 fs'.mod_time ++ leBytes 2 fs'.mod_date) ++
              leBytes 4 fs'.crc ++
              (leBytes 4 fs'.csize ++ leBytes 4 fs'.size ++ leBytes 2 fs'.fname.length ++
               leBytes 2 0 ++ leBytes 2 0 ++ leBytes 2 0 ++ leBytes 2 0 ++ leBytes 4 0 ++
               leBytes 4 fs'.offset ++ fs'.fname) = cd := by
            simp only [List.append_assoc]
            exact hb
          rw [← hcrc']
          exact hgoal.symm
        · simp [leBytes_length, CDFH_MAGIC]
      · exact absurd hcd (by simp)

/-- C6 witness: the two-chunk member `[104] ++ [105]` ("hi") streamed
in store mode records `crc32(b"hi") = 0xD8932AAC` in the struct and in
the data descriptor. -/
theorem C6_crc_accumulation_and_storage_witness :
    ({ mod_time := 0, mod_date := 0, crc := 3633523372, offset := 0, flags := 8,
       src := Src.s [[104], [105]], cmethod := none, cmpr_id := 0, fname := [97],
       size := 2, csize := 2 } : FileStruct).crc =
      crc32 [[104], [105]].flatten 0 % 4294967296 ∧
    (∃ dd, ([[80, 75, 3, 4, 20, 0, 8, 0, 0, 0, 0, 0, 0, 0, 0, 0, 0, 0, 0, 0, 0, 0,
             0, 0, 0, 0, 1, 0, 0, 0, 97], [104], [105],
            [80, 75, 7, 8, 172, 42, 147, 216, 2, 0, 0, 0, 2, 0, 0, 0]] :
        List (List Nat)).getLast? = some dd ∧
      dd.take 8 = DD_MAGIC ++ leBytes 4 (crc32 [[104], [105]].flatten 0 % 4294967296)) :=
  ((C6_crc_accumulation_and_storage idCompressor (initState (some false) 1024)
    { mod_time := 0, mod_date := 0, crc := 0, offset := 0, flags := 8,
      src := Src.s [[104], [105]], cmethod := none, cmpr_id := 0, fname := [97],
      size := 0, csize := 0 }
    [[104], [105]]
    { mod_time := 0, mod_date := 0, crc := 3633523372, offset := 0, flags := 8,
      src := Src.s [[104], [105]], cmethod := none, cmpr_id := 0, fname := [97],
      size := 2, csize := 2 }
    [[80, 75, 3, 4, 20, 0, 8, 0, 0, 0, 0, 0, 0, 0, 0, 0, 0, 0, 0, 0, 0, 0, 0, 0,
      0, 0, 1, 0, 0, 0, 97], [104], [105],
     [80, 75, 7, 8, 172, 42, 147, 216, 2, 0, 0, 0, 2, 0, 0, 0]]
    rfl rfl (by decide)).elim fun h1 h2 => ⟨h1, h2.1⟩)

/-- C1: in "auto" mode (`zip64=None`), a file member larger than
2^31−1 bytes does trigger the ZIP64 upgrade during normalization, but
the archive claimed by the spec is never produced: its member bytes
stream out and then the trailer's first central-directory header calls
the undefined attribute `make_zip64_cdir_extra` (the defined method is
`_make_zip64_cdir_extra`), so the build aborts with `AttributeError`
and no ZIP64 EOCD, locator or central directory is emitted.  (The
member's ZIP64-shaped local header also packs (0, 0) into its ZIP64
extra field, not the true sizes, which are only carried by the data
descriptor.)  Shown here for a store-mode member named "a". -/
theorem C1_auto_mode_big_file_attribute_error (C : Compressor) (dt : DT) (cz : Nat)
    (hcz : 0 < cz) (f : PyFile) (hbig : f.content.length > ZIP32_LIMIT)
    (h64 : f.content.length < 18446744073709551616) :
    (streamZip C dt none cz
      [{ file := some f, stream := none, name := some [97],
         compression := none }]).2 = some PyErr.AttributeError := by
  have h1 : createFileStruct (initState none cz) dt
      { file := some f, stream := none, name := some [97], compression := none } =
      .ok ({ zip64 := some true, zip64headers := true, version := ZIP64_VERSION,
             files := [], cdir_size := 0, off := 0, chunksize := cz,
             use_ddmagic := true },
           { mod_time := dosTime dt, mod_date := dosDate dt, crc := 0, offset := 0,
             flags := 8, src := Src.f f.path f.content, cmethod := none,
             cmpr_id := 0, fname := [97], size := 0, csize := 0 }) := by
    unfold createFileStruct resolveSource
    dsimp only
    rw [if_pos hbig]
    rfl
  have hsz : (dataGenerator
      ({ zip64 := some true, zip64headers := true, version := ZIP64_VERSION,
         files := [], cdir_size := 0, off := 0, chunksize := cz,
         use_ddmagic := true } : ZState).chunksize
      ({ mod_time := dosTime dt, mod_date := dosDate dt, crc := 0, offset := 0,
         flags := 8, src := Src.f f.path f.content, cmethod := none,
         cmpr_id := 0, fname := [97], size := 0,
         csize := 0 } : FileStruct).src).flatten.length <
      if ({ zip64 := some true, zip64headers := true, version := ZIP64_VERSION,
            files := [], cdir_size := 0, off := 0, chunksize := cz,
            use_ddmagic := true } : ZState).zip64headers = true
      then 18446744073709551616 else 4294967296 := by
    dsimp only [dataGenerator]
    rw [chunksOf_flatten cz f.content hcz]
    simpa using h64
  obtain ⟨fs2, chunks, h2⟩ := streamSingleFile_store_ok C
    { zip64 := some true, zip64headers := true, version := ZIP64_VERSION,
      files := [], cdir_size := 0, off := 0, chunksize := cz, use_ddmagic := true }
    { mod_time := dosTime dt, mod_date := dosDate dt, crc := 0, offset := 0,
      flags := 8, src := Src.f f.path f.content, cmethod := none,
      cmpr_id := 0, fname := [97], size := 0, csize := 0 }
    rfl
    ⟨by show (45 : Nat) < 65536; decide, by show (8 : Nat) < 65536; decide,
      by show (0 : Nat) < 65536; decide, dosTime_lt dt, dosDate_lt dt,
      by show ([97] : List Nat).length < 65536; decide,
      by show (makeZip64LocalExtra 0 0).length < 65536; decide⟩
    hsz
  have hpm : processMember C dt (initState none cz)
      { file := some f, stream := none, name := some [97], compression := none } =
      .ok ({ zip64 := some true, zip64headers := true, version := ZIP64_VERSION,
             files := [fs2], cdir_size := 0, off := chunks.flatten.length,
             chunksize := cz, use_ddmagic := true }, chunks) := by
    unfold processMember
    rw [h1]
    dsimp only
    rw [h2]
    simp
  have hml : membersLoop C dt (initState none cz)
      [{ file := some f, stream := none, name := some [97], compression := none }] =
      ({ zip64 := some true, zip64headers := true, version := ZIP64_VERSION,
         files := [fs2], cdir_size := 0, off := chunks.flatten.length,
         chunksize := cz, use_ddmagic := true }, chunks, none) := by
    unfold membersLoop
    rw [hpm]
    dsimp only
    unfold membersLoop
    simp
  have hend : endStructures
      { zip64 := some true, zip64headers := true, version := ZIP64_VERSION,
        files := [fs2], cdir_size := 0, off := chunks.flatten.length,
        chunksize := cz, use_ddmagic := true } = .error PyErr.AttributeError := rfl
  unfold streamZip
  rw [zipInit_eq]
  dsimp only
  unfold streamFrom
  rw [hml]
  dsimp only
  rw [hend]

/-- C1 witness: a 2^31-byte file (one byte over the 32-bit limit) in
auto mode aborts the build with `AttributeError`. -/
theorem C1_auto_mode_big_file_attribute_error_witness :
    0 < 1024 ∧ (List.replicate (2 ^ 31) 0).length > ZIP32_LIMIT ∧
    (List.replicate (2 ^ 31) 0).length < 18446744073709551616 ∧
    (streamZip idCompressor dt0 none 1024
      [{ file := some ⟨[98], List.replicate (2 ^ 31) 0⟩, stream := none,
         name := some [97], compression := none }]).2 =
      some PyErr.AttributeError := by
  have hbig : (List.replicate (2 ^ 31) 0).length > ZIP32_LIMIT := by
    rw [List.length_replicate]
    decide
  have h64 : (List.replicate (2 ^ 31) 0).length < 18446744073709551616 := by
    rw [List.length_replicate]
    decide
  exact ⟨by decide, hbig, h64,
    C1_auto_mode_big_file_attribute_error idCompressor dt0 1024 (by decide)
      ⟨[98], List.replicate (2 ^ 31) 0⟩ hbig h64⟩

/-- C7: with the `aiofiles` dependency available, the asynchronous
orchestrator (`AioZipStream.stream`, whose awaits do not reorder or
alter chunks) and the synchronous one (`ZipStream.stream`) produce
identical chunk sequences — hence byte-identical concatenations — for
every member list, compressor behaviour, ZIP64 selector, chunk size
and timestamp. -/
theorem C7_sync_async_byte_identical (C : Compressor) (dt : DT) (z : Option Bool)
    (cz : Nat) (srcs : List SrcData) :
    streamAioZip true C dt z cz srcs = streamZip C dt z cz srcs := by
  have hsf : aioStreamSingleFile = streamSingleFile := rfl
  have hcf : ∀ s dtt d, aioCreateFileStruct true s dtt d = createFileStruct s dtt d := by
    intro s dtt d
    unfold aioCreateFileStruct
    simp
  have hpm : ∀ s d, aioProcessMember true C dt s d = processMember C dt s d := by
    intro s d
    unfold aioProcessMember processMember
    rw [hcf, hsf]
  have hml : ∀ srcs2 s, aioMembersLoop true C dt s srcs2 = membersLoop C dt s srcs2 := by
    intro srcs2
    induction srcs2 with
    | nil => intro s; rfl
    | cons d rest ih =>
        intro s
        unfold aioMembersLoop membersLoop
        rw [hpm]
        simp only [ih]
  unfold streamAioZip streamZip aioStreamFrom streamFrom
  simp only [hml]

/-- C8: with the ZIP64 selector forced off (`zip64=False`, the
constructor default), supplying a file member whose known size exceeds
2^31−1 after any number of successfully streamed members makes the
build raise `Zip64RequiredError` during that member's normalization:
the stream ends with exactly the previously emitted chunks — no header
or data bytes of the offending member and no trailer. -/
theorem C8_forced_off_raises_before_member (C : Compressor) (dt : DT) (cz : Nat)
    (pre post : List SrcData) (d : SrcData) (f : PyFile)
    (hf : d.file = some f) (hbig : f.content.length > ZIP32_LIMIT)
    (s' : ZState) (cs : List (List Nat))
    (hpre : membersLoop C dt (initState (some false) cz) pre = (s', cs, none)) :
    streamZip C dt (some false) cz (pre ++ d :: post) =
      (cs, some PyErr.Zip64RequiredError) := by
  have hz' : s'.zip64 = some false :=
    (membersLoop_ok C dt pre _ s' cs hpre).2.2.2.2 rfl
  have hfail : processMember C dt s' d = .error PyErr.Zip64RequiredError := by
    unfold processMember createFileStruct resolveSource
    rw [hf]
    dsimp only
    rw [if_pos hbig]
    unfold zip64_required
    rw [hz']
    simp
  have hstep : membersLoop C dt s' (d :: post) =
      (s', [], some PyErr.Zip64RequiredError) := by
    unfold membersLoop
    rw [hfail]
  have happ := membersLoop_append C dt pre _ _ _ hpre (d :: post)
  unfold streamZip
  rw [zipInit_eq]
  dsimp only
  unfold streamFrom
  rw [happ, hstep]
  simp

/-- C8 witness: a single 2^31-byte file member with `zip64=False`
aborts immediately with `Zip64RequiredError` and zero output chunks. -/
theorem C8_forced_off_raises_before_member_witness :
    (List.replicate (2 ^ 31) 7).length > ZIP32_LIMIT ∧
    streamZip idCompressor dt0 (some false) 1024
      [{ file := some ⟨[97], List.replicate (2 ^ 31) 7⟩, stream := none,
         name := some [97], compression := none }] =
      ([], some PyErr.Zip64RequiredError) := by
  have hbig : (List.replicate (2 ^ 31) 7).length > ZIP32_LIMIT := by
    rw [List.length_replicate]
    decide
  exact ⟨hbig, C8_forced_off_raises_before_member idCompressor dt0 1024 [] []
    { file := some ⟨[97], List.replicate (2 ^ 31) 7⟩, stream := none,
      name := some [97], compression := none }
    ⟨[97], List.replicate (2 ^ 31) 7⟩ rfl hbig (initState (some false) 1024) [] rfl⟩

/-- C10 (counterexample): the claim quantifies over every member
description with a `'stream'` source and no `'name'` key, but the
compression check precedes the default-name lookup: with an invalid
compression selector such a description raises
`UnsupportedCompressionError`, not `KeyError`. -/
theorem C10_bad_compression_preempts_keyerror :
    createFileStruct (initState (some false) 1024) dt0
      { file := none, stream := some [[1]], name := none,
        compression := some "store" } =
      .error PyErr.UnsupportedCompressionError ∧
    PyErr.UnsupportedCompressionError ≠ PyErr.KeyError := by
  decide

/-- C10 (amended): a member description whose only source is a
push-sequence (`'stream'` present, no `'file'`), with no `'name'` key
and a valid compression selector (unset or `"deflate"`), makes
normalization raise `KeyError` from the `data['file']` lookup in the
default-name derivation — not `MissingSource`, and no record with a
derived name is produced; a default name is only derived for file-path
sources. -/
theorem C10_stream_without_name_keyerror (s : ZState) (dt : DT)
    (st : List (List Nat)) (c : Option String)
    (hc : c = none ∨ c = some "deflate") :
    createFileStruct s dt
      { file := none, stream := some st, name := none, compression := c } =
      .error PyErr.KeyError := by
  unfold createFileStruct resolveSource nameOf
  dsimp only
  rw [if_pos hc]

/-- C10 witness: the amended statement at a concrete description. -/
theorem C10_stream_without_name_keyerror_witness :
    createFileStruct (initState (some false) 1024) dt0
      { file := none, stream := some [[1]], name := none, compression := none } =
      .error PyErr.KeyError :=
  C10_stream_without_name_keyerror (initState (some false) 1024) dt0 [[1]] none
    (Or.inl rfl)

end ZipStreamModel
